import Mathlib

/-!
REVO, a browser extension that controls video playback speed.

A shallow embedding of the page-side controller (`src/content/content.js`), of the
settings store of the background worker (`src/background/background.js`) and of the
key capture of the popup (`src/popup/popup.js`).

Modelling conventions.

* A JavaScript number is a rational number. `Math.min` and `Math.max` are `min` and `max`;
  `NaN` and the infinities are outside the model (the host setter of `playbackRate`
  rejects them, which is the failure path of `applySpeed`).
* A host object is identified by a natural number; the page-side state carries the host
  page (videos, overlay elements, viewport) next to the script's own globals.
* A handler is one synchronous step: an `async` function contributes what it does before
  its first `await`.
* A function that can leave by an uncaught exception returns the state reached together
  with the message of the exception.
-/

namespace Revo

/-! ## JavaScript helpers -/

/-- The method `String.prototype.includes` on character lists. -/
def includesChars (needle : List Char) : List Char → Bool
  | [] => needle.isEmpty
  | c :: cs => needle.isPrefixOf (c :: cs) || includesChars needle cs

/-- The method `String.prototype.includes`. -/
def includes (hay needle : String) : Bool :=
  includesChars needle.data hay.data

/-- Truthiness of a possibly undefined number: defined and not zero. -/
def truthyNum : Option ℚ → Bool
  | none => false
  | some q => decide (q ≠ 0)

/-- The method `Number.prototype.toFixed(2)` for magnitudes below `10 ^ 21`: the sign,
then the nearest multiple of one hundredth (a tie goes to the larger magnitude),
printed with two decimals. -/
def toFixed2 (x : ℚ) : String :=
  let n : Nat := (⌊|x| * 100 + 1 / 2⌋).toNat
  (if x < 0 then "-" else "") ++ toString (n / 100) ++ "." ++
    (if n % 100 < 10 then "0" else "") ++ toString (n % 100)

/-- The function `clamp` of the specification: `min(max(r, 0.25), 8.0)`. -/
def clamp (r : ℚ) : ℚ := min (max r (1 / 4)) 8

namespace Content

/-! ## Data model of `content.js` -/

abbrev VideoId := Nat

abbrev OverlayId := Nat

/-- A point `{ x, y }`. -/
structure Position where
  x : ℚ
  y : ℚ
deriving DecidableEq

/-- One value of `settings.domainSettings`: both properties are optional. -/
structure DomainSettings where
  speed : Option ℚ
  position : Option Position
deriving DecidableEq

/-- The object `settings.keyboardShortcuts`. -/
structure KeyboardShortcuts where
  up : String
  down : String
  reset : String
  fineUp : String
  fineDown : String
  toggleOverlay : String
  focusVideo : String
  fullscreen : String
deriving DecidableEq

/-- The global `settings` object. -/
structure Settings where
  defaultSpeed : ℚ
  theme : String
  keyboardShortcuts : KeyboardShortcuts
  overlayVisible : Bool
  autoApply : Bool
  domainSettings : List (String × DomainSettings)
  lastUsedSpeed : ℚ
deriving DecidableEq

/-- The initial value of `settings` (lines 30-47). -/
def initialSettings : Settings where
  defaultSpeed := 1
  theme := "auto"
  keyboardShortcuts :=
    { up := "", down := "", reset := "CtrlShiftDigit0", fineUp := "CtrlShiftArrowUp",
      fineDown := "CtrlShiftArrowDown", toggleOverlay := "", focusVideo := "CtrlShiftKeyX",
      fullscreen := "" }
  overlayVisible := true
  autoApply := false
  domainSettings := []
  lastUsedSpeed := 1

/-- An ancestor element of a video, below `document.body`. -/
structure Ancestor where
  /-- The value of `window.getComputedStyle(container).position`. -/
  position : String
  /-- Whether `container.appendChild(overlay)` throws. -/
  appendThrows : Bool

/-- A video element of the host page. -/
structure Video where
  playbackRate : ℚ
  /-- The value of `document.contains(video)`. -/
  inDocument : Bool
  offsetWidth : ℚ
  offsetHeight : ℚ
  webkitKeys : Bool
  mozKeys : Bool
  /-- The host setter of `playbackRate`: `none` when the value is accepted, the message
  of the exception when it is rejected. -/
  rateError : ℚ → Option String
  /-- The chain `video.parentElement`, `.parentElement`, ... up to, and without,
  `document.body` (or up to the detached root). -/
  ancestors : List Ancestor

/-- The parent node an overlay is attached to. -/
inductive ContainerRef where
  | body
  | ancestor (depth : Nat)
deriving DecidableEq

/-- An overlay element built by `createOverlay`. -/
structure Overlay where
  /-- The pixels of `style.left`. -/
  left : ℚ
  /-- The pixels of `style.top`. -/
  top : ℚ
  /-- The text of the `.speed-value` span. -/
  speedText : String
  stylePosition : String
  styleDisplay : String
  styleCursor : String
  /-- Whether the class list holds `dragging`. -/
  dragging : Bool
  parentNode : Option ContainerRef
deriving DecidableEq

/-- The layout the host computes for an overlay element. -/
structure Layout where
  offsetWidth : ℚ
  offsetHeight : ℚ
  /-- The viewport coordinates of the origin that `style.left` and `style.top` are
  measured from. -/
  originX : ℚ
  originY : ℚ

/-- A value of the map `videoElements`. -/
structure OverlayData where
  overlay : OverlayId
  position : Position
deriving DecidableEq

/-- The argument of one call of `chrome.storage.sync.set` made by `saveSettings`. -/
structure SyncItems where
  defaultSpeed : ℚ
  theme : String
  keyboardShortcuts : KeyboardShortcuts
  autoApply : Bool
  domainSettings : List (String × DomainSettings)
deriving DecidableEq

/-- The globals of the content script together with the host page. -/
structure State where
  /-- The `WeakMap` `videoElements`, as an association list with one entry per key. -/
  videoElements : List (VideoId × OverlayData)
  trackedVideos : List VideoId
  currentVideo : Option VideoId
  isDragging : Bool
  dragOffset : Position
  currentDomain : String
  settings : Settings
  /-- The video elements of the host page. -/
  videos : VideoId → Video
  /-- The result of `document.querySelector("video")`. -/
  firstVideo : Option VideoId
  /-- Every overlay element created so far; the identifier is the index. -/
  overlays : List Overlay
  layout : OverlayId → Layout
  innerWidth : ℚ
  innerHeight : ℚ
  /-- Whether `document.body.appendChild(overlay)` throws. -/
  bodyAppendThrows : Bool
  /-- The messages of the toasts shown so far, the newest first. -/
  toasts : List String
  /-- Whether `chrome.runtime?.id` is truthy. -/
  runtimeValid : Bool
  /-- The calls of `chrome.storage.sync.set` issued so far, the newest first. -/
  syncSets : List SyncItems

/-! ## The map `videoElements` -/

/-- The method `WeakMap.prototype.has`. -/
def weakHas (m : List (VideoId × OverlayData)) (video : VideoId) : Bool :=
  (m.lookup video).isSome

/-- The method `WeakMap.prototype.get`. -/
def weakGet (m : List (VideoId × OverlayData)) (video : VideoId) : Option OverlayData :=
  m.lookup video

/-- The method `WeakMap.prototype.delete`. -/
def weakDelete (m : List (VideoId × OverlayData)) (video : VideoId) :
    List (VideoId × OverlayData) :=
  m.filter fun entry => entry.1 != video

/-- The method `WeakMap.prototype.set`: the entry of the key is replaced. -/
def weakSet (m : List (VideoId × OverlayData)) (video : VideoId) (data : OverlayData) :
    List (VideoId × OverlayData) :=
  (video, data) :: weakDelete m video

/-- A `WeakMap` is not iterable and has no method `entries`: the call
`videoElements.entries()` throws a `TypeError` (the comment at lines 581-582 of the source
says so: "WeakMap is not iterable"). -/
def weakEntries (_m : List (VideoId × OverlayData)) :
    Except String (List (VideoId × OverlayData)) :=
  .error "TypeError: videoElements.entries is not a function"

/-- The number of entries of a key in the map. -/
def entryCount (m : List (VideoId × OverlayData)) (v : VideoId) : Nat :=
  m.countP fun entry => entry.1 == v

/-! ## Settings and speed -/

/-- The function `isValidVideo` (lines 20-28). -/
def isValidVideo (s : State) (video : VideoId) : Bool :=
  if !(s.videos video).inDocument then false
  else if (s.videos video).offsetWidth = 0 ∧ (s.videos video).offsetHeight = 0 then false
  else if (s.videos video).webkitKeys || (s.videos video).mozKeys then false
  else true

/-- The function `saveSettings` (lines 78-107) up to its first `await`: the check of the
extension context and the call of `chrome.storage.sync.set`. The write of the local tier
follows the `await` and is a later task. -/
def saveSettings (s : State) : State :=
  if !s.runtimeValid then s
  else
    { s with
      syncSets :=
        { defaultSpeed := s.settings.defaultSpeed
          theme := s.settings.theme
          keyboardShortcuts := s.settings.keyboardShortcuts
          autoApply := s.settings.autoApply
          domainSettings := s.settings.domainSettings } :: s.syncSets }

/-- The function `getDomainSettings` (lines 109-111): the entry of the current domain, or
the empty object. -/
def getDomainSettings (s : State) : DomainSettings :=
  (s.settings.domainSettings.lookup s.currentDomain).getD { speed := none, position := none }

/-- A write to one overlay element; an identifier that names no element changes nothing. -/
def modifyOverlay (s : State) (overlay : OverlayId) (f : Overlay → Overlay) : State :=
  { s with overlays := s.overlays.modify f overlay }

/-- The function `updateSpeedDisplay` (lines 147-152). -/
def updateSpeedDisplay (s : State) (overlay : OverlayId) (speed : ℚ) : State :=
  modifyOverlay s overlay fun o => { o with speedText := toFixed2 speed ++ "x" }

/-- The assignment `video.playbackRate = speed`, once the host accepted the value. -/
def setPlaybackRate (s : State) (video : VideoId) (speed : ℚ) : State :=
  { s with
    videos := Function.update s.videos video { s.videos video with playbackRate := speed } }

/-- The function `applySpeed` (lines 113-145). -/
def applySpeed (s : State) (video : VideoId) (speed : ℚ) : State :=
  let speed := min (max speed (1 / 4)) 8
  match (s.videos video).rateError speed with
  | none =>
    let s1 := setPlaybackRate s video speed
    let s2 := { s1 with settings := { s1.settings with lastUsedSpeed := speed } }
    let s3 := saveSettings s2
    match weakGet s3.videoElements video with
    | some overlayData => updateSpeedDisplay s3 overlayData.overlay speed
    | none => s3
  | some message =>
    if message ≠ "" ∧ includes message "Extension context invalidated" then s
    else
      match (s.videos video).rateError 1 with
      | none =>
        let s1 := setPlaybackRate s video 1
        { s1 with settings := { s1.settings with lastUsedSpeed := 1 } }
      | some _ => s

/-- The function `updateAllOverlaySpeedDisplays` (lines 154-163). -/
def updateAllOverlaySpeedDisplays (s : State) : State :=
  s.trackedVideos.foldl
    (fun acc video =>
      if (acc.videos video).inDocument && weakHas acc.videoElements video then
        match weakGet acc.videoElements video with
        | some overlayData =>
          updateSpeedDisplay acc overlayData.overlay (acc.videos video).playbackRate
        | none => acc
      else acc)
    s

/-- The body of the loop of `applySpeedToAllVideos` (lines 167-177). -/
def applySpeedToAllVideosStep (s : State) (video : VideoId) : State :=
  if (s.videos video).inDocument then
    let domainSettings : DomainSettings :=
      (s.settings.domainSettings.lookup s.currentDomain).getD
        { speed := none, position := none }
    let domainSpeed := domainSettings.speed
    let newSpeed :=
      if truthyNum domainSpeed && s.settings.autoApply then domainSpeed.getD 0
      else s.settings.defaultSpeed
    applySpeed s video newSpeed
  else s

/-- The function `applySpeedToAllVideos` (lines 165-179). -/
def applySpeedToAllVideos (s : State) : State :=
  s.trackedVideos.foldl applySpeedToAllVideosStep s

/-! ## Overlays -/

/-- The element `createOverlay` builds (lines 188-208): placed at `position`, showing the
text of the template. -/
def newOverlay (position : Position) : Overlay where
  left := position.x
  top := position.y
  speedText := "1.00x"
  stylePosition := ""
  styleDisplay := ""
  styleCursor := ""
  dragging := false
  parentNode := none

/-- The function `createOverlay` (lines 181-248): the state reached and the overlay
returned (`none` for `null`). -/
def createOverlay (s : State) (video : VideoId) : State × Option OverlayId :=
  if weakHas s.videoElements video then (s, none)
  else
    let domainSettings := getDomainSettings s
    let position := domainSettings.position.getD { x := 10, y := 10 }
    let overlay : OverlayId := s.overlays.length
    let s1 := { s with overlays := s.overlays ++ [newOverlay position] }
    let s2 :=
      { s1 with
        videoElements :=
          weakSet s1.videoElements video { overlay := overlay, position := position } }
    (updateSpeedDisplay s2 overlay (s2.videos video).playbackRate, some overlay)

/-- The method `getBoundingClientRect` of an overlay: its left top corner in viewport
coordinates. -/
def boundingClientRect (s : State) (overlay : OverlayId) : Position :=
  match s.overlays[overlay]? with
  | some o =>
    { x := (s.layout overlay).originX + o.left, y := (s.layout overlay).originY + o.top }
  | none => { x := (s.layout overlay).originX, y := (s.layout overlay).originY }

/-- The assignment `settings.domainSettings[currentDomain].position = position`, after
the entry was created when missing (lines 337-340). -/
def setDomainPosition (domains : List (String × DomainSettings)) (domain : String)
    (position : Position) : List (String × DomainSettings) :=
  match domains.lookup domain with
  | none => domains ++ [(domain, { speed := none, position := some position })]
  | some _ =>
    domains.map fun entry =>
      if entry.1 = domain then (entry.1, { entry.2 with position := some position })
      else entry

/-- The loop of lines 330-335 over the entries: the first entry of the overlay gets the
position. -/
def setEntryPosition (overlay : OverlayId) (position : Position) :
    List (VideoId × OverlayData) → List (VideoId × OverlayData)
  | [] => []
  | (video, data) :: rest =>
    if data.overlay = overlay then (video, { data with position := position }) :: rest
    else (video, data) :: setEntryPosition overlay position rest

/-- The function `saveOverlayPosition` (lines 323-342): the state reached and the
exception that left the function, if any. -/
def saveOverlayPosition (s : State) (overlay : OverlayId) : State × Option String :=
  let rect := boundingClientRect s overlay
  let position : Position := { x := rect.x, y := rect.y }
  match weakEntries s.videoElements with
  | .error thrown => (s, some thrown)
  | .ok entries =>
    let s1 := { s with videoElements := setEntryPosition overlay position entries }
    let s2 :=
      { s1 with
        settings :=
          { s1.settings with
            domainSettings :=
              setDomainPosition s1.settings.domainSettings s1.currentDomain position } }
    (saveSettings s2, none)

/-- A `mousedown`, `mousemove` or `mouseup` event. -/
structure MouseEvent where
  clientX : ℚ
  clientY : ℚ
  /-- The overlay `document.elementFromPoint(clientX, clientY)?.closest(...)` finds. -/
  hit : Option OverlayId
  /-- The overlay whose header received the event (`this.closest(...)`). -/
  owner : OverlayId

/-- The result of `document.querySelector(".smart-speed-overlay.dragging")`: the first
attached overlay with the class (document order is taken to be creation order). -/
def queryDragging (s : State) : Option OverlayId :=
  s.overlays.findIdx? fun o => o.dragging && o.parentNode.isSome

/-- The function `startDrag` (lines 250-260). -/
def startDrag (s : State) (e : MouseEvent) : State :=
  let s1 := { s with isDragging := true }
  let overlay := e.owner
  let rect := boundingClientRect s1 overlay
  let s2 :=
    { s1 with dragOffset := { x := e.clientX - rect.x, y := e.clientY - rect.y } }
  modifyOverlay s2 overlay fun o => { o with styleCursor := "grabbing" }

/-- The function `drag` (lines 262-285): the state reached and the exception that left
the function, if any. -/
def drag (s : State) (e : MouseEvent) : State × Option String :=
  if !s.isDragging then (s, none)
  else
    match (queryDragging s).orElse (fun _ => e.hit) with
    | none => (s, none)
    | some overlay =>
      let s1 := modifyOverlay s overlay fun o => { o with dragging := true }
      let x := e.clientX - s1.dragOffset.x
      let y := e.clientY - s1.dragOffset.y
      let maxX := s1.innerWidth - (s1.layout overlay).offsetWidth
      let maxY := s1.innerHeight - (s1.layout overlay).offsetHeight
      let s2 := modifyOverlay s1 overlay fun o => { o with left := max 0 (min x maxX) }
      let s3 := modifyOverlay s2 overlay fun o => { o with top := max 0 (min y maxY) }
      saveOverlayPosition s3 overlay

/-- The function `stopDrag` (lines 287-294). -/
def stopDrag (s : State) : State :=
  let s1 := { s with isDragging := false }
  match queryDragging s1 with
  | some overlay =>
    modifyOverlay s1 overlay fun o => { o with dragging := false, styleCursor := "move" }
  | none => s1

/-- The function `showToast` (lines 344-368) without its timers: the toast replaces the
one on screen. -/
def showToast (s : State) (message : String) : State :=
  { s with toasts := message :: s.toasts }

/-- The walk of lines 396-409: the depth of the nearest ancestor whose computed position
is `relative`, `absolute` or `fixed`. -/
def findContainer (ancestors : List Ancestor) : Option Nat :=
  ancestors.findIdx? fun container =>
    container.position = "relative" || container.position = "absolute" ||
      container.position = "fixed"

/-- The container the walk of lines 396-416 ends at. -/
def chosenContainer (found : Option Nat) : ContainerRef :=
  match found with
  | none => .body
  | some depth => .ancestor depth

/-- Whether `container.appendChild(overlay)` (line 418) throws for the chosen container. -/
def appendThrows (s : State) (video : VideoId) (found : Option Nat) : Bool :=
  match found with
  | none => s.bodyAppendThrows
  | some depth =>
    match (s.videos video).ancestors[depth]? with
    | some container => container.appendThrows
    | none => false

/-- Lines 420-425 of `injectOverlay`: the speed applied to a video whose overlay was
attached. -/
def applyInitialSpeed (s : State) (video : VideoId) : State :=
  let domainSettings := getDomainSettings s
  if truthyNum domainSettings.speed && s.settings.autoApply then
    applySpeed s video (domainSettings.speed.getD 0)
  else if s.settings.lastUsedSpeed ≠ 1 then
    applySpeed s video s.settings.lastUsedSpeed
  else s

/-- The `try` block of `injectOverlay` with its `catch` (lines 394-432). -/
def attachOverlay (s : State) (video : VideoId) (overlay : OverlayId) : State :=
  let found := findContainer (s.videos video).ancestors
  let s1 :=
    modifyOverlay s overlay fun o =>
      { o with stylePosition := if found.isNone then "fixed" else "absolute" }
  if appendThrows s video found then
    let s2 := modifyOverlay s1 overlay fun o => { o with parentNode := none }
    { s2 with videoElements := weakDelete s2.videoElements video }
  else
    let s2 := modifyOverlay s1 overlay fun o => { o with parentNode := some (chosenContainer found) }
    applyInitialSpeed s2 video

/-- The function `injectOverlay` (lines 370-433). -/
def injectOverlay (s : State) (video : VideoId) : State :=
  if weakHas s.videoElements video then s
  else if (s.videos video).webkitKeys || (s.videos video).mozKeys then s
  else
    let s1 := { s with trackedVideos := s.trackedVideos ++ [video] }
    match createOverlay s1 video with
    | (s2, none) => { s2 with trackedVideos := s2.trackedVideos.erase video }
    | (s2, some overlay) => attachOverlay s2 video overlay

/-! ## Keyboard shortcuts -/

/-- A `keydown` event. -/
structure KeyEvent where
  targetTagName : String
  targetIsContentEditable : Bool
  shiftKey : Bool
  altKey : Bool
  ctrlKey : Bool
  code : String
deriving DecidableEq

/-- What a handler did to the event. -/
structure Suppression where
  defaultPrevented : Bool
  propagationStopped : Bool
deriving DecidableEq

/-- The template literal of lines 530-532. Between the `Alt` and the `Ctrl` segment the
source reads `$${`: a dollar sign that opens no substitution, so it is literal text. -/
def keyCombo (e : KeyEvent) : String :=
  (if e.shiftKey then "Shift" else "") ++ (if e.altKey then "Alt" else "") ++ "$" ++
    (if e.ctrlKey then "Ctrl" else "") ++ e.code

/-- The function `updateOverlaysVisibility` (lines 578-597). -/
def updateOverlaysVisibility (s : State) : State :=
  s.trackedVideos.foldl
    (fun acc video =>
      if (acc.videos video).inDocument && weakHas acc.videoElements video then
        match weakGet acc.videoElements video with
        | some overlayData =>
          modifyOverlay acc overlayData.overlay fun o =>
            { o with styleDisplay := if acc.settings.overlayVisible then "block" else "none" }
        | none => acc
      else acc)
    s

/-- The function `toggleOverlays` (lines 569-575). -/
def toggleOverlays (s : State) : State :=
  let s1 :=
    { s with settings := { s.settings with overlayVisible := !s.settings.overlayVisible } }
  updateOverlaysVisibility (saveSettings s1)

/-- The function `handleKeyDown` (lines 514-566): the state reached and what was done to
the event. -/
def handleKeyDown (s : State) (e : KeyEvent) : State × Suppression :=
  if e.targetTagName = "INPUT" || e.targetTagName = "TEXTAREA" || e.targetIsContentEditable
  then (s, { defaultPrevented := false, propagationStopped := false })
  else
    match s.currentVideo.orElse (fun _ => s.firstVideo) with
    | none => (s, { defaultPrevented := false, propagationStopped := false })
    | some video =>
      let rate := (s.videos video).playbackRate
      let shortcuts := s.settings.keyboardShortcuts
      let step : Option (State × ℚ × String) :=
        if keyCombo e = shortcuts.up then
          let newSpeed := min (rate + 1 / 4) 8
          some (s, newSpeed, "Speed: " ++ toFixed2 newSpeed ++ "x")
        else if keyCombo e = shortcuts.down then
          let newSpeed := max (rate - 1 / 4) (1 / 4)
          some (s, newSpeed, "Speed: " ++ toFixed2 newSpeed ++ "x")
        else if keyCombo e = shortcuts.reset then
          some (s, 1, "Speed reset to 1.00x")
        else if keyCombo e = shortcuts.fineUp then
          let newSpeed := min (rate + 1 / 20) 8
          some (s, newSpeed, "Speed: " ++ toFixed2 newSpeed ++ "x")
        else if keyCombo e = shortcuts.fineDown then
          let newSpeed := max (rate - 1 / 20) (1 / 4)
          some (s, newSpeed, "Speed: " ++ toFixed2 newSpeed ++ "x")
        else if keyCombo e = shortcuts.toggleOverlay then
          let s1 := toggleOverlays s
          some (s1, rate,
            "Overlays " ++ (if s1.settings.overlayVisible then "shown" else "hidden"))
        else none
      match step with
      | none => (s, { defaultPrevented := false, propagationStopped := false })
      | some (s1, newSpeed, message) =>
        (showToast (applySpeed s1 video newSpeed) message,
          { defaultPrevented := true, propagationStopped := true })

/-! ## Specification-side definitions -/

/-- The override speed of the current domain: `settings.domainSettings[currentDomain].speed`
when the entry and the property exist. -/
def domainOverride (s : State) : Option ℚ :=
  (s.settings.domainSettings.lookup s.currentDomain).bind fun entry => entry.speed

/-- The effective target speed in the words of the specification: the override speed of the
current domain if `autoApply` is enabled and an override exists, else the global default
speed. -/
def targetSpeed (s : State) : ℚ :=
  match domainOverride s with
  | some o => if s.settings.autoApply then o else s.settings.defaultSpeed
  | none => s.settings.defaultSpeed

/-- The invariant of the data model: every speed of the settings lies in `[0.25, 8.0]`. -/
def SpeedsInRange (st : Settings) : Prop :=
  (1 / 4 ≤ st.defaultSpeed ∧ st.defaultSpeed ≤ 8) ∧
    (1 / 4 ≤ st.lastUsedSpeed ∧ st.lastUsedSpeed ≤ 8) ∧
    ∀ domain entry o, (domain, entry) ∈ st.domainSettings → entry.speed = some o →
      1 / 4 ≤ o ∧ o ≤ 8

/-- Two states that agree on what the loop of `applySpeedToAllVideos` reads. -/
def SameInputs (s t : State) : Prop :=
  t.currentDomain = s.currentDomain ∧
    t.settings.defaultSpeed = s.settings.defaultSpeed ∧
    t.settings.autoApply = s.settings.autoApply ∧
    t.settings.domainSettings = s.settings.domainSettings ∧
    (∀ w, (t.videos w).inDocument = (s.videos w).inDocument) ∧
    ∀ w, (t.videos w).rateError = (s.videos w).rateError

end Content

/-! ## The key capture of `popup.js` -/

namespace Popup

/-- The chord `startKeyCapture.keyHandler` stores for a key press (lines 209-215). -/
def capturedCombo (e : Content.KeyEvent) : String :=
  let combo := ""
  let combo := if e.ctrlKey then combo ++ "Ctrl" else combo
  let combo := if e.shiftKey then combo ++ "Shift" else combo
  let combo := if e.altKey then combo ++ "Alt" else combo
  if combo ≠ "" then combo ++ e.code else e.code

end Popup


/-! ## The settings store of `background.js` -/

namespace Background

/-- A value the extension storage holds. -/
inductive Json where
  | num (q : ℚ)
  | str (s : String)
  | bool (b : Bool)
  | obj (fields : List (String × Json))

/-- A JavaScript object with string keys; a key is read at its first entry. -/
abbrev Obj := List (String × Json)

/-- The read `o[key]`; `none` is `undefined`. -/
def Obj.get (o : Obj) (key : String) : Option Json :=
  o.lookup key

/-- The test `key in o`. -/
def Obj.hasKey (o : Obj) (key : String) : Bool :=
  (o.lookup key).isSome

/-- The statement `delete o[key]`. -/
def Obj.delete (o : Obj) (key : String) : Obj :=
  o.filter fun entry => entry.1 != key

/-- The assignment `o[key] = value`. -/
def Obj.set (o : Obj) (key : String) (value : Json) : Obj :=
  (key, value) :: Obj.delete o key

/-- The spread `{ ...base, ...update }`: the keys of `update` win. The method `set` of a
storage area merges its argument into the stored items in the same way. -/
def Obj.assign (base update : Obj) : Obj :=
  update ++ base.filter fun entry => !(Obj.hasKey update entry.1)

/-- The method `get` of a storage area with a list of keys: the stored items among them. -/
def Obj.pick (store : Obj) (keys : List String) : Obj :=
  keys.filterMap fun key => (store.lookup key).map fun value => (key, value)

/-- The constant `DEFAULT_SETTINGS` (lines 1-18). -/
def DEFAULT_SETTINGS : Obj :=
  [("defaultSpeed", .num 1),
    ("theme", .str "auto"),
    ("keyboardShortcuts",
      .obj
        [("up", .str ""), ("down", .str ""), ("reset", .str "CtrlShiftDigit0"),
          ("fineUp", .str "ShiftAltArrowUp"), ("fineDown", .str "ShiftAltArrowDown"),
          ("toggleOverlay", .str ""), ("focusVideo", .str "CtrlShiftKeyX"),
          ("fullscreen", .str "")]),
    ("overlayVisible", .bool true),
    ("autoApply", .bool false),
    ("domainSettings", .obj []),
    ("lastUsedSpeed", .num 1)]

/-- The two tiers of `chrome.storage`, each with a flag that tells whether its calls
reject. -/
structure Storage where
  syncItems : Obj
  localItems : Obj
  syncFails : Bool
  localFails : Bool

/-- The function `initializeSettings` (lines 24-38). -/
def initializeSettings (st : Storage) : Storage :=
  if st.syncFails then st
  else if st.syncItems.length = 0 then
    let st1 := { st with syncItems := Obj.assign st.syncItems DEFAULT_SETTINGS }
    if st1.localFails then st1
    else
      { st1 with
        localItems :=
          Obj.assign st1.localItems
            [("overlayVisible", .bool true), ("lastUsedSpeed", .num 1)] }
  else st

/-- The function `getSettings` (lines 77-93). -/
def getSettings (st : Storage) : Obj :=
  if st.syncFails then DEFAULT_SETTINGS
  else
    let syncSettings := st.syncItems
    if st.localFails then DEFAULT_SETTINGS
    else
      let localSettings := Obj.pick st.localItems ["overlayVisible", "lastUsedSpeed"]
      Obj.assign syncSettings localSettings

/-- Lines 97-108 of `saveSettings`: the part of the argument that goes to the
synchronized tier and the part that goes to the local tier. -/
def splitSettings (settings : Obj) : Obj × Obj :=
  let syncSettings : Obj := settings
  let localSettings : Obj := []
  let (syncSettings, localSettings) :=
    match Obj.get settings "overlayVisible" with
    | some value =>
      (Obj.delete syncSettings "overlayVisible", Obj.set localSettings "overlayVisible" value)
    | none => (syncSettings, localSettings)
  match Obj.get settings "lastUsedSpeed" with
  | some value =>
    (Obj.delete syncSettings "lastUsedSpeed", Obj.set localSettings "lastUsedSpeed" value)
  | none => (syncSettings, localSettings)

/-- The function `saveSettings` (lines 95-120); a call that rejects ends the `try` block. -/
def saveSettings (st : Storage) (settings : Obj) : Storage :=
  let (syncSettings, localSettings) := splitSettings settings
  if syncSettings.length > 0 ∧ st.syncFails then st
  else
    let st1 :=
      if syncSettings.length > 0 then
        { st with syncItems := Obj.assign st.syncItems syncSettings }
      else st
    if localSettings.length > 0 ∧ st1.localFails then st1
    else if localSettings.length > 0 then
      { st1 with localItems := Obj.assign st1.localItems localSettings }
    else st1

end Background

/-! ## Sample inputs -/

namespace Content

/-- A playing, attached, unprotected video whose setter accepts every value. -/
def sampleVideo : Video where
  playbackRate := 1
  inDocument := true
  offsetWidth := 640
  offsetHeight := 360
  webkitKeys := false
  mozKeys := false
  rateError := fun _ => none
  ancestors := []

/-- A freshly loaded page on `example.com` with the initial settings. -/
def sampleState : State where
  videoElements := []
  trackedVideos := []
  currentVideo := none
  isDragging := false
  dragOffset := { x := 0, y := 0 }
  currentDomain := "example.com"
  settings := initialSettings
  videos := fun _ => sampleVideo
  firstVideo := some 0
  overlays := []
  layout := fun _ => { offsetWidth := 200, offsetHeight := 60, originX := 0, originY := 0 }
  innerWidth := 1200
  innerHeight := 800
  bodyAppendThrows := false
  toasts := []
  runtimeValid := true
  syncSets := []

/-- A page with video 0 tracked, an override of 2 for the domain and `autoApply` on. -/
def overrideState : State :=
  { sampleState with
    trackedVideos := [0]
    settings :=
      { initialSettings with
        autoApply := true
        domainSettings := [("example.com", { speed := some 2, position := none })] } }

/-- The page of `sampleState` whose videos play at rate `r` and whose `up` shortcut is
bound to the chord `ArrowUp`. -/
def upBoundState (r : ℚ) : State :=
  { sampleState with
    videos := fun _ => { sampleVideo with playbackRate := r }
    settings :=
      { initialSettings with
        keyboardShortcuts := { initialSettings.keyboardShortcuts with up := "ArrowUp" } } }

/-- A key press of the bare `ArrowUp` key on the page body. -/
def arrowUpEvent : KeyEvent where
  targetTagName := "BODY"
  targetIsContentEditable := false
  shiftKey := false
  altKey := false
  ctrlKey := false
  code := "ArrowUp"

/-- The page of `sampleState` with every shortcut unbound. -/
def unboundState : State :=
  { sampleState with
    settings :=
      { initialSettings with
        keyboardShortcuts :=
          { up := "", down := "", reset := "", fineUp := "", fineDown := "",
            toggleOverlay := "", focusVideo := "", fullscreen := "" } } }

/-- The reset chord of the initial settings, typed into a text input. -/
def typingEvent : KeyEvent where
  targetTagName := "INPUT"
  targetIsContentEditable := false
  shiftKey := true
  altKey := false
  ctrlKey := true
  code := "Digit0"

/-- A page with one attached overlay, for video 0, while a drag is active. -/
def dragState : State :=
  { sampleState with
    videoElements := [(0, { overlay := 0, position := { x := 10, y := 10 } })]
    trackedVideos := [0]
    isDragging := true
    overlays :=
      [{ left := 10, top := 10, speedText := "1.00x", stylePosition := "fixed",
         styleDisplay := "", styleCursor := "grabbing", dragging := false,
         parentNode := some .body }] }

/-- A pointer move to `x = -50` over the overlay. -/
def dragLeftEvent : MouseEvent where
  clientX := -50
  clientY := 100
  hit := some 0
  owner := 0

/-- A pointer move to `(300, 200)` over the overlay. -/
def dragEvent : MouseEvent where
  clientX := 300
  clientY := 200
  hit := some 0
  owner := 0

/-- The page of `sampleState` with `lastUsedSpeed = 1.75`. -/
def lastUsedState : State :=
  { sampleState with settings := { initialSettings with lastUsedSpeed := 7 / 4 } }

end Content

namespace Background

/-- A storage seeded with the defaults. -/
def sampleStorage : Storage where
  syncItems := DEFAULT_SETTINGS
  localItems := [("overlayVisible", .bool true), ("lastUsedSpeed", .num 1)]
  syncFails := false
  localFails := false

end Background

/-! ## Overlay buttons and the `updateSettings` message -/

namespace Content

/-- The click listener of the decrease button (lines 215-220), after `e.stopPropagation()`. -/
def decreaseClick (s : State) (video : VideoId) : State :=
  let newSpeed := (s.videos video).playbackRate - 1 / 4
  showToast (applySpeed s video newSpeed) ("Speed: " ++ toFixed2 newSpeed ++ "x")

/-- The click listener of the increase button (lines 222-227), after `e.stopPropagation()`. -/
def increaseClick (s : State) (video : VideoId) : State :=
  let newSpeed := (s.videos video).playbackRate + 1 / 4
  showToast (applySpeed s video newSpeed) ("Speed: " ++ toFixed2 newSpeed ++ "x")

/-- The double-click listener of the speed display (lines 229-233). -/
def speedDisplayDblClick (s : State) (video : VideoId) : State :=
  showToast (applySpeed s video 1) "Speed reset to 1.00x"

/-- The payload `message.settings` of an `updateSettings` message: a settings object in
which every field may be absent. -/
structure SettingsUpdate where
  defaultSpeed : Option ℚ
  theme : Option String
  keyboardShortcuts : Option KeyboardShortcuts
  overlayVisible : Option Bool
  autoApply : Option Bool
  domainSettings : Option (List (String × DomainSettings))
  lastUsedSpeed : Option ℚ

/-- The spread `{ ...settings, ...message.settings }` (lines 638-641). -/
def mergeSettings (settings : Settings) (update : SettingsUpdate) : Settings where
  defaultSpeed := update.defaultSpeed.getD settings.defaultSpeed
  theme := update.theme.getD settings.theme
  keyboardShortcuts := update.keyboardShortcuts.getD settings.keyboardShortcuts
  overlayVisible := update.overlayVisible.getD settings.overlayVisible
  autoApply := update.autoApply.getD settings.autoApply
  domainSettings := update.domainSettings.getD settings.domainSettings
  lastUsedSpeed := update.lastUsedSpeed.getD settings.lastUsedSpeed

/-- The branch `updateSettings` of the message listener of `init` (lines 637-653); the
response is `{ success: true }`. -/
def onUpdateSettings (s : State) (update : SettingsUpdate) : State :=
  let s1 := { s with settings := mergeSettings s.settings update }
  let s2 :=
    if update.defaultSpeed.isSome || update.domainSettings.isSome then applySpeedToAllVideos s1
    else s1
  updateOverlaysVisibility s2

/-- The speeds of an `updateSettings` payload lie in `[0.25, 8.0]`, as the popup sends
them. -/
def UpdateInRange (update : SettingsUpdate) : Prop :=
  (∀ q, update.defaultSpeed = some q → 1 / 4 ≤ q ∧ q ≤ 8) ∧
    (∀ q, update.lastUsedSpeed = some q → 1 / 4 ≤ q ∧ q ≤ 8) ∧
    ∀ table, update.domainSettings = some table →
      ∀ domain entry o, (domain, entry) ∈ table → entry.speed = some o → 1 / 4 ≤ o ∧ o ≤ 8

/-- The page of `sampleState` whose videos play at rate `r`, with video 0 tracked and its
overlay attached. -/
def trackedAtRate (r : ℚ) : State :=
  { sampleState with
    videos := fun _ => { sampleVideo with playbackRate := r }
    videoElements := [(0, { overlay := 0, position := { x := 10, y := 10 } })]
    trackedVideos := [0]
    overlays :=
      [{ left := 10, top := 10, speedText := toFixed2 r ++ "x", stylePosition := "fixed",
         styleDisplay := "", styleCursor := "", dragging := false,
         parentNode := some .body }] }

/-- The page of `sampleState` whose videos play at rate 2 and reject every rate with the
given message; the last used speed is 2. -/
def rejectingState (message : String) : State :=
  { sampleState with
    videos := fun _ => { sampleVideo with playbackRate := 2, rateError := fun _ => some message }
    settings := { initialSettings with lastUsedSpeed := 2 } }

/-- The page of `sampleState` whose videos play at rate 2 and reject every rate but 1. -/
def resettableState : State :=
  { sampleState with
    videos := fun _ =>
      { sampleVideo with
        playbackRate := 2
        rateError := fun q => if q = 1 then none else some "NotSupportedError" }
    settings := { initialSettings with lastUsedSpeed := 2 } }

/-- The page of `sampleState` on which `document.body.appendChild` throws. -/
def appendFailState : State :=
  { sampleState with bodyAppendThrows := true }

/-- An `updateSettings` payload with a default speed of 100 and nothing else. -/
def wildUpdate : SettingsUpdate where
  defaultSpeed := some 100
  theme := none
  keyboardShortcuts := none
  overlayVisible := none
  autoApply := none
  domainSettings := none
  lastUsedSpeed := none

/-- The payload the popup sends for a global speed of 2.5. -/
def popupUpdate : SettingsUpdate where
  defaultSpeed := some (5 / 2)
  theme := none
  keyboardShortcuts := none
  overlayVisible := none
  autoApply := none
  domainSettings := none
  lastUsedSpeed := none

end Content

/-! ## The message listener of `background.js` -/

namespace Background

/-- A message received by `chrome.runtime.onMessage`; an absent property is `none`. -/
structure Message where
  action : Option String
  settings : Option Json

/-- A response passed to `sendResponse`. -/
inductive Response where
  /-- The object `{ error }`. -/
  | error (error : String)
  /-- The object `{ settings }`. -/
  | settings (settings : Obj)
  /-- The object `{ success: true }`. -/
  | success
  /-- The object `{ success: false, error }`. -/
  | failure (error : String)

/-- Truthiness of a stored value. -/
def Json.truthy : Json → Bool
  | .num q => decide (q ≠ 0)
  | .str s => decide (s ≠ "")
  | .bool b => b
  | .obj _ => true

/-- The call `saveSettings(message.settings)`: on a payload that is no object the test
`"overlayVisible" in settings` throws inside the `try` block and nothing is written. -/
def savePayload (st : Storage) (payload : Json) : Storage :=
  match payload with
  | .obj fields => saveSettings st fields
  | _ => st

/-- The listener of `chrome.runtime.onMessage` (lines 51-75): the storage reached and the
response sent; the message is `none` when it is `null` or `undefined`. -/
def onMessage (st : Storage) (message : Option Message) : Storage × Response :=
  match message with
  | none => (st, .error "Invalid message format")
  | some m =>
    match m.action with
    | none => (st, .error "Invalid message format")
    | some action =>
      if action = "" then (st, .error "Invalid message format")
      else if action = "getSettings" then (st, .settings (getSettings st))
      else if action = "saveSettings" then
        match m.settings with
        | none => (st, .failure "No settings provided")
        | some payload =>
          if !payload.truthy then (st, .failure "No settings provided")
          else (savePayload st payload, .success)
      else (st, .error ("Unknown action: " ++ action))

/-- A storage whose synchronized tier rejects every call. -/
def failingStorage : Storage where
  syncItems := DEFAULT_SETTINGS
  localItems := [("overlayVisible", .bool true), ("lastUsedSpeed", .num 1)]
  syncFails := true
  localFails := false

/-- The message `{ action: "saveSettings", settings: { defaultSpeed: 2.5 } }`. -/
def saveMessage : Message where
  action := some "saveSettings"
  settings := some (.obj [("defaultSpeed", .num (5 / 2))])

end Background

/-! ## Video discovery -/

namespace Content

/-- An element of the page: its light-DOM children and, when it hosts one, the children of
its open shadow root. -/
inductive Element where
  | mk (id : VideoId) (localName : String) (accessThrows : Bool) (children : List Element)
      (shadowRoot : Option (List Element))

/-- The identity of the element; a video element is named like the entry of `State.videos`. -/
def Element.id : Element → VideoId
  | .mk id _ _ _ _ => id

/-- The name the selector `video` is matched against. -/
def Element.localName : Element → String
  | .mk _ localName _ _ _ => localName

/-- Whether reading `node.shadowRoot` throws (a cross-origin restriction). -/
def Element.accessThrows : Element → Bool
  | .mk _ _ accessThrows _ _ => accessThrows

/-- The property `node.children`. -/
def Element.children : Element → List Element
  | .mk _ _ _ children _ => children

/-- The children of `node.shadowRoot`; `none` when the element hosts no open shadow root. -/
def Element.shadowRoot : Element → Option (List Element)
  | .mk _ _ _ _ shadowRoot => shadowRoot

/-- The result of `querySelectorAll("*")` on a node with the given children: the elements
below it in document order, shadow trees not entered. -/
def descendants : List Element → List Element
  | [] => []
  | .mk id localName accessThrows children shadowRoot :: rest =>
    .mk id localName accessThrows children shadowRoot :: (descendants children ++ descendants rest)

/-- The result of `querySelectorAll("video")` on a node with the given children. -/
def queryVideos (children : List Element) : List VideoId :=
  ((descendants children).filter fun e => e.localName = "video").map Element.id

/-- The function `findAllShadowVideos` (lines 490-512): the array `videos` after the call.
An access that throws ends the `try` block of the node. -/
def findAllShadowVideos (node : Element) (videos : List VideoId) : List VideoId :=
  if node.accessThrows then videos
  else
    let videos :=
      match h : node.shadowRoot with
      | some kids =>
        let videos := videos ++ queryVideos kids
        (descendants kids).attach.foldl (fun acc ⟨child, _⟩ => findAllShadowVideos child acc)
          videos
      | none => videos
    node.children.attach.foldl (fun acc ⟨child, _⟩ => findAllShadowVideos child acc) videos
termination_by sizeOf node
decreasing_by
  · rename_i hmem
    have below : ∀ (l : List Element) (e : Element), e ∈ descendants l → sizeOf e < sizeOf l := by
      intro l
      induction l using descendants.induct with
      | case1 => intro e he; simp [descendants] at he
      | case2 id localName accessThrows children shadowRoot rest ih1 ih2 =>
        intro e he
        simp only [descendants, List.mem_cons, List.mem_append] at he
        rcases he with he | he | he
        · subst he; simp; omega
        · have := ih1 e he; simp; omega
        · have := ih2 e he; simp; omega
    have host : sizeOf kids < sizeOf node := by
      cases node
      simp only [Element.shadowRoot] at h
      subst h
      simp
      omega
    exact Nat.lt_trans (below kids child hmem) host
  · rename_i hmem
    have host : sizeOf node.children < sizeOf node := by
      cases node
      simp [Element.children]
      omega
    exact Nat.lt_trans (List.sizeOf_lt_of_mem hmem) host

/-- The function `findAllVideos` (lines 478-488) on a document with the given children. The
call `findAllShadowVideos(document, videos)` finds no `shadowRoot` on the document and
loops over `document.children`. -/
def findAllVideos (document : List Element) : List VideoId :=
  let videos := queryVideos document
  document.foldl (fun acc child => findAllShadowVideos child acc) videos

/-- The body of the `forEach` of `scanForVideos` (lines 438-475); the listeners it adds run
in later tasks. -/
def scanForVideosStep (s : State) (video : VideoId) : State :=
  if !isValidVideo s video then s
  else if weakHas s.videoElements video then s
  else injectOverlay s video

/-- The function `scanForVideos` (lines 435-476). -/
def scanForVideos (document : List Element) (s : State) : State :=
  (findAllVideos document).foldl scanForVideosStep s

/-- One link of the page tree: to a light-DOM child, or from a host to a child of its
shadow root. -/
def Link (parent child : Element) : Prop :=
  child ∈ parent.children ∨ ∃ kids, parent.shadowRoot = some kids ∧ child ∈ kids

/-- An element is reachable from the document root through child and shadow-root links. -/
def Reachable (document : List Element) (e : Element) : Prop :=
  ∃ root, root ∈ document ∧ Relation.ReflTransGen Link root e

/-- A page with a video inside the shadow root of a host, next to a video in the light
DOM. -/
def sampleDocument : List Element :=
  [.mk 100 "html" false
    [.mk 101 "div" false [] (some [.mk 7 "video" false [] none]),
      .mk 3 "video" false [] none]
    none]

end Content

namespace Content

/-- The page of `sampleState` with `autoApply` on and an override of 20 stored for the
domain. -/
def wildOverrideState : State :=
  { sampleState with
    settings :=
      { initialSettings with
        autoApply := true
        domainSettings := [("example.com", { speed := some 20, position := none })] } }

/-- The page of `sampleState` whose videos are detached from the document. -/
def detachedState : State :=
  { sampleState with videos := fun _ => { sampleVideo with inDocument := false } }

end Content
/-! ## Frame lemmas -/

namespace Content

theorem clamp_range (r : ℚ) : 1 / 4 ≤ clamp r ∧ clamp r ≤ 8 := by
  unfold clamp
  refine ⟨le_min (le_max_right _ _) (by norm_num), min_le_right _ _⟩

theorem clamp_of_range (r : ℚ) (h1 : 1 / 4 ≤ r) (h2 : r ≤ 8) : clamp r = r := by
  unfold clamp
  rw [max_eq_left h1, min_eq_left h2]

@[simp] theorem saveSettings_videos (s : State) : (saveSettings s).videos = s.videos := by
  unfold saveSettings; split <;> rfl

@[simp] theorem saveSettings_settings (s : State) : (saveSettings s).settings = s.settings := by
  unfold saveSettings; split <;> rfl

@[simp] theorem saveSettings_videoElements (s : State) :
    (saveSettings s).videoElements = s.videoElements := by
  unfold saveSettings; split <;> rfl

@[simp] theorem saveSettings_trackedVideos (s : State) :
    (saveSettings s).trackedVideos = s.trackedVideos := by
  unfold saveSettings; split <;> rfl

@[simp] theorem saveSettings_currentDomain (s : State) :
    (saveSettings s).currentDomain = s.currentDomain := by
  unfold saveSettings; split <;> rfl

@[simp] theorem saveSettings_overlays (s : State) : (saveSettings s).overlays = s.overlays := by
  unfold saveSettings; split <;> rfl

@[simp] theorem updateSpeedDisplay_videos (s : State) (o : OverlayId) (q : ℚ) :
    (updateSpeedDisplay s o q).videos = s.videos := rfl

@[simp] theorem updateSpeedDisplay_settings (s : State) (o : OverlayId) (q : ℚ) :
    (updateSpeedDisplay s o q).settings = s.settings := rfl

@[simp] theorem updateSpeedDisplay_videoElements (s : State) (o : OverlayId) (q : ℚ) :
    (updateSpeedDisplay s o q).videoElements = s.videoElements := rfl

@[simp] theorem updateSpeedDisplay_trackedVideos (s : State) (o : OverlayId) (q : ℚ) :
    (updateSpeedDisplay s o q).trackedVideos = s.trackedVideos := rfl

@[simp] theorem updateSpeedDisplay_currentDomain (s : State) (o : OverlayId) (q : ℚ) :
    (updateSpeedDisplay s o q).currentDomain = s.currentDomain := rfl

/-- What `applySpeed` does when the host accepts the clamped value. -/
theorem applySpeed_accepted (s : State) (video : VideoId) (r : ℚ)
    (h : (s.videos video).rateError (clamp r) = none) :
    (applySpeed s video r).videos
        = Function.update s.videos video { s.videos video with playbackRate := clamp r } ∧
      (applySpeed s video r).settings = { s.settings with lastUsedSpeed := clamp r } := by
  unfold clamp at h
  unfold applySpeed
  simp only [h]
  constructor <;> (split <;> simp [setPlaybackRate, clamp])

@[simp] theorem setPlaybackRate_settings (s : State) (v : VideoId) (q : ℚ) :
    (setPlaybackRate s v q).settings = s.settings := rfl

@[simp] theorem setPlaybackRate_videoElements (s : State) (v : VideoId) (q : ℚ) :
    (setPlaybackRate s v q).videoElements = s.videoElements := rfl

@[simp] theorem setPlaybackRate_trackedVideos (s : State) (v : VideoId) (q : ℚ) :
    (setPlaybackRate s v q).trackedVideos = s.trackedVideos := rfl

@[simp] theorem setPlaybackRate_currentDomain (s : State) (v : VideoId) (q : ℚ) :
    (setPlaybackRate s v q).currentDomain = s.currentDomain := rfl

@[simp] theorem setPlaybackRate_inDocument (s : State) (v w : VideoId) (q : ℚ) :
    ((setPlaybackRate s v q).videos w).inDocument = (s.videos w).inDocument := by
  unfold setPlaybackRate
  by_cases hw : w = v
  · subst hw; simp
  · simp [Function.update_noteq hw]

@[simp] theorem setPlaybackRate_rateError (s : State) (v w : VideoId) (q : ℚ) :
    ((setPlaybackRate s v q).videos w).rateError = (s.videos w).rateError := by
  unfold setPlaybackRate
  by_cases hw : w = v
  · subst hw; simp
  · simp [Function.update_noteq hw]

theorem setPlaybackRate_other (s : State) (v w : VideoId) (q : ℚ) (hw : w ≠ v) :
    (setPlaybackRate s v q).videos w = s.videos w := by
  unfold setPlaybackRate
  simp [Function.update_noteq hw]

@[simp] theorem setPlaybackRate_same (s : State) (v : VideoId) (q : ℚ) :
    ((setPlaybackRate s v q).videos v).playbackRate = q := by
  unfold setPlaybackRate
  simp

/-- The fields `applySpeed` never writes. -/
theorem applySpeed_frame (s : State) (video : VideoId) (r : ℚ) :
    (applySpeed s video r).currentDomain = s.currentDomain ∧
      (applySpeed s video r).trackedVideos = s.trackedVideos ∧
      (applySpeed s video r).videoElements = s.videoElements ∧
      (applySpeed s video r).settings.defaultSpeed = s.settings.defaultSpeed ∧
      (applySpeed s video r).settings.autoApply = s.settings.autoApply ∧
      (applySpeed s video r).settings.domainSettings = s.settings.domainSettings ∧
      (applySpeed s video r).settings.keyboardShortcuts = s.settings.keyboardShortcuts ∧
      (applySpeed s video r).settings.overlayVisible = s.settings.overlayVisible ∧
      (∀ w, ((applySpeed s video r).videos w).inDocument = (s.videos w).inDocument) ∧
      (∀ w, ((applySpeed s video r).videos w).rateError = (s.videos w).rateError) ∧
      (∀ w, w ≠ video → (applySpeed s video r).videos w = s.videos w) := by
  unfold applySpeed
  simp only
  split
  · split <;>
      (refine ⟨?_, ?_, ?_, ?_, ?_, ?_, ?_, ?_, ?_, ?_, ?_⟩ <;>
        first
        | (intro w hw; simp [setPlaybackRate_other _ _ _ _ hw])
        | simp)
  · split
    · simp
    · split
      · refine ⟨?_, ?_, ?_, ?_, ?_, ?_, ?_, ?_, ?_, ?_, ?_⟩ <;>
          first
          | (intro w hw; simp [setPlaybackRate_other _ _ _ _ hw])
          | simp
      · simp

theorem SameInputs.refl (s : State) : SameInputs s s :=
  ⟨rfl, rfl, rfl, rfl, fun _ => rfl, fun _ => rfl⟩

theorem SameInputs.trans {s t u : State} (h1 : SameInputs s t) (h2 : SameInputs t u) :
    SameInputs s u := by
  obtain ⟨a1, a2, a3, a4, a5, a6⟩ := h1
  obtain ⟨b1, b2, b3, b4, b5, b6⟩ := h2
  exact ⟨b1.trans a1, b2.trans a2, b3.trans a3, b4.trans a4,
    fun w => (b5 w).trans (a5 w), fun w => (b6 w).trans (a6 w)⟩

theorem SameInputs.targetSpeed_eq {s t : State} (h : SameInputs s t) :
    targetSpeed t = targetSpeed s := by
  obtain ⟨a1, a2, a3, a4, _, _⟩ := h
  unfold targetSpeed domainOverride
  rw [a1, a2, a3, a4]

theorem lookup_mem {α : Type} (l : List (String × α)) (k : String) (v : α)
    (h : l.lookup k = some v) : (k, v) ∈ l := by
  induction l with
  | nil => simp at h
  | cons hd tl ih =>
    obtain ⟨k1, v1⟩ := hd
    rw [List.lookup_cons] at h
    by_cases hk : k = k1
    · subst hk
      simp at h
      subst h
      exact List.mem_cons_self _ _
    · have hb : (k == k1) = false := by simpa using hk
      rw [hb] at h
      exact List.mem_cons_of_mem _ (ih h)

theorem applySpeedToAllVideosStep_same (s : State) (w : VideoId) :
    SameInputs s (applySpeedToAllVideosStep s w) := by
  unfold applySpeedToAllVideosStep
  split
  · obtain ⟨h1, _, _, h4, h5, h6, _, _, h9, h10, _⟩ := applySpeed_frame s w
      (if (truthyNum ((s.settings.domainSettings.lookup s.currentDomain).getD
          { speed := none, position := none }).speed && s.settings.autoApply) = true
        then (((s.settings.domainSettings.lookup s.currentDomain).getD
          { speed := none, position := none }).speed).getD 0
        else s.settings.defaultSpeed)
    exact ⟨h1, h4, h5, h6, h9, h10⟩
  · exact SameInputs.refl s

theorem applySpeedToAllVideosStep_other (s : State) (w v : VideoId)
    (h : w ≠ v ∨ (s.videos w).inDocument = false) :
    (applySpeedToAllVideosStep s w).videos v = s.videos v := by
  unfold applySpeedToAllVideosStep
  split
  · rename_i hin
    rcases h with h | h
    · exact (applySpeed_frame s w _).2.2.2.2.2.2.2.2.2.2 v (Ne.symm h)
    · rw [h] at hin; exact absurd hin (by simp)
  · rfl

/-- The value the loop body computes is the target speed of the specification when the
override, if any, is not zero. -/
theorem newSpeed_eq_targetSpeed (s : State)
    (h0 : ∀ o, domainOverride s = some o → o ≠ 0) :
    (if (truthyNum ((s.settings.domainSettings.lookup s.currentDomain).getD
          { speed := none, position := none }).speed && s.settings.autoApply) = true
      then (((s.settings.domainSettings.lookup s.currentDomain).getD
          { speed := none, position := none }).speed).getD 0
      else s.settings.defaultSpeed) = targetSpeed s := by
  unfold targetSpeed
  unfold domainOverride at h0 ⊢
  cases hl : s.settings.domainSettings.lookup s.currentDomain with
  | none => simp [truthyNum]
  | some entry =>
    cases hs : entry.speed with
    | none => simp [truthyNum, hs]
    | some o =>
      have ho : o ≠ 0 := h0 o (by simp [hl, hs])
      simp [truthyNum, hs, ho]

theorem targetSpeed_range (s : State) (hr : SpeedsInRange s.settings) :
    1 / 4 ≤ targetSpeed s ∧ targetSpeed s ≤ 8 := by
  obtain ⟨hd, _, ho⟩ := hr
  unfold targetSpeed domainOverride
  cases hl : s.settings.domainSettings.lookup s.currentDomain with
  | none => simpa using hd
  | some entry =>
    cases hs : entry.speed with
    | none => simpa [hs] using hd
    | some o =>
      have := ho _ entry o (lookup_mem _ _ _ hl) hs
      simp only [Option.some_bind, hs]
      split
      · exact this
      · exact hd

theorem override_ne_zero (s : State) (hr : SpeedsInRange s.settings) :
    ∀ o, domainOverride s = some o → o ≠ 0 := by
  intro o h
  obtain ⟨_, _, ho⟩ := hr
  unfold domainOverride at h
  cases hl : s.settings.domainSettings.lookup s.currentDomain with
  | none => simp [hl] at h
  | some entry =>
    simp [hl] at h
    have := (ho _ entry o (lookup_mem _ _ _ hl) h).1
    intro h0
    rw [h0] at this
    norm_num at this

theorem applySpeedToAllVideosStep_sets (s : State) (v : VideoId)
    (h0 : ∀ o, domainOverride s = some o → o ≠ 0)
    (hr : 1 / 4 ≤ targetSpeed s ∧ targetSpeed s ≤ 8)
    (hin : (s.videos v).inDocument = true)
    (hacc : (s.videos v).rateError (targetSpeed s) = none) :
    ((applySpeedToAllVideosStep s v).videos v).playbackRate = targetSpeed s := by
  unfold applySpeedToAllVideosStep
  simp only [hin, if_true]
  rw [newSpeed_eq_targetSpeed s h0]
  have hc : clamp (targetSpeed s) = targetSpeed s := clamp_of_range _ hr.1 hr.2
  have := (applySpeed_accepted s v (targetSpeed s) (by rw [hc]; exact hacc)).1
  rw [this, hc]
  simp

theorem foldl_step_same (l : List VideoId) :
    ∀ s : State, SameInputs s (l.foldl applySpeedToAllVideosStep s) := by
  induction l with
  | nil => intro s; exact SameInputs.refl s
  | cons w l ih =>
    intro s
    exact (applySpeedToAllVideosStep_same s w).trans (ih _)

theorem foldl_step_other (v : VideoId) (l : List VideoId) :
    ∀ s : State, (∀ w ∈ l, w ≠ v ∨ (s.videos w).inDocument = false) →
      (l.foldl applySpeedToAllVideosStep s).videos v = s.videos v := by
  induction l with
  | nil => intro s _; rfl
  | cons w l ih =>
    intro s h
    simp only [List.foldl_cons]
    rw [ih (applySpeedToAllVideosStep s w)]
    · exact applySpeedToAllVideosStep_other s w v (h w (List.mem_cons_self _ _))
    · intro x hx
      rcases h x (List.mem_cons_of_mem _ hx) with hne | hd
      · exact Or.inl hne
      · right
        rw [(applySpeedToAllVideosStep_same s w).2.2.2.2.1 x]
        exact hd

theorem foldl_step_sets (v : VideoId) (l : List VideoId) :
    ∀ s : State, (∀ o, domainOverride s = some o → o ≠ 0) →
      (1 / 4 ≤ targetSpeed s ∧ targetSpeed s ≤ 8) →
      (s.videos v).inDocument = true →
      (s.videos v).rateError (targetSpeed s) = none →
      v ∈ l →
      ((l.foldl applySpeedToAllVideosStep s).videos v).playbackRate = targetSpeed s := by
  induction l with
  | nil => intro s _ _ _ _ hm; simp at hm
  | cons w l ih =>
    intro s h0 hr hin hacc hm
    simp only [List.foldl_cons]
    have hsame := applySpeedToAllVideosStep_same s w
    have ht := hsame.targetSpeed_eq
    by_cases hml : v ∈ l
    · have h0' : ∀ o, domainOverride (applySpeedToAllVideosStep s w) = some o → o ≠ 0 := by
        intro o ho
        apply h0 o
        unfold domainOverride at ho ⊢
        rw [← hsame.1, ← hsame.2.2.2.1]
        exact ho
      have := ih (applySpeedToAllVideosStep s w) h0' (by rw [ht]; exact hr)
        (by rw [hsame.2.2.2.2.1 v]; exact hin)
        (by rw [hsame.2.2.2.2.2 v, ht]; exact hacc) hml
      rw [this, ht]
    · have hw : w = v := by
        rcases List.mem_cons.mp hm with h | h
        · exact h.symm
        · exact absurd h hml
      subst hw
      rw [foldl_step_other w l _ (fun x hx => Or.inl (fun hxw => hml (hxw ▸ hx)))]
      exact applySpeedToAllVideosStep_sets s w h0 hr hin hacc


@[simp] theorem modifyOverlay_videoElements (s : State) (o : OverlayId) (f : Overlay → Overlay) :
    (modifyOverlay s o f).videoElements = s.videoElements := rfl

@[simp] theorem modifyOverlay_trackedVideos (s : State) (o : OverlayId) (f : Overlay → Overlay) :
    (modifyOverlay s o f).trackedVideos = s.trackedVideos := rfl

@[simp] theorem modifyOverlay_videos (s : State) (o : OverlayId) (f : Overlay → Overlay) :
    (modifyOverlay s o f).videos = s.videos := rfl

@[simp] theorem modifyOverlay_settings (s : State) (o : OverlayId) (f : Overlay → Overlay) :
    (modifyOverlay s o f).settings = s.settings := rfl

@[simp] theorem modifyOverlay_currentDomain (s : State) (o : OverlayId) (f : Overlay → Overlay) :
    (modifyOverlay s o f).currentDomain = s.currentDomain := rfl

@[simp] theorem modifyOverlay_overlays_length (s : State) (o : OverlayId)
    (f : Overlay → Overlay) : (modifyOverlay s o f).overlays.length = s.overlays.length := by
  simp [modifyOverlay]

theorem applySpeed_overlays_length (s : State) (v : VideoId) (r : ℚ) :
    (applySpeed s v r).overlays.length = s.overlays.length := by
  unfold applySpeed
  simp only
  split
  · split <;> simp [updateSpeedDisplay, setPlaybackRate]
  · split
    · rfl
    · split <;> simp [setPlaybackRate]

theorem lookup_mem_nat {α : Type} (l : List (Nat × α)) (k : Nat) (v : α)
    (h : l.lookup k = some v) : (k, v) ∈ l := by
  induction l with
  | nil => simp at h
  | cons hd tl ih =>
    obtain ⟨k1, v1⟩ := hd
    rw [List.lookup_cons] at h
    by_cases hk : k = k1
    · subst hk
      simp at h
      subst h
      exact List.mem_cons_self _ _
    · have hb : (k == k1) = false := by simpa using hk
      rw [hb] at h
      exact List.mem_cons_of_mem _ (ih h)

theorem weakHas_weakSet (m : List (VideoId × OverlayData)) (v : VideoId) (d : OverlayData) :
    weakHas (weakSet m v d) v = true := by
  simp [weakHas, weakSet]

theorem weakHas_weakDelete (m : List (VideoId × OverlayData)) (v : VideoId) :
    weakHas (weakDelete m v) v = false := by
  simp only [weakHas, weakDelete]
  cases hl : List.lookup v (List.filter (fun entry => entry.1 != v) m) with
  | none => rfl
  | some d =>
    have := lookup_mem_nat _ _ _ hl
    simp [List.mem_filter] at this

theorem entryCount_weakSet (m : List (VideoId × OverlayData)) (v : VideoId) (d : OverlayData) :
    entryCount (weakSet m v d) v = 1 := by
  simp [entryCount, weakSet, weakDelete, List.countP_cons, List.countP_eq_zero, List.mem_filter]

theorem applyInitialSpeed_frame (s : State) (v : VideoId) :
    (applyInitialSpeed s v).videoElements = s.videoElements ∧
      (applyInitialSpeed s v).trackedVideos = s.trackedVideos ∧
      (applyInitialSpeed s v).overlays.length = s.overlays.length := by
  unfold applyInitialSpeed
  simp only
  split
  · exact ⟨(applySpeed_frame s v _).2.2.1, (applySpeed_frame s v _).2.1,
      applySpeed_overlays_length s v _⟩
  · split
    · exact ⟨(applySpeed_frame s v _).2.2.1, (applySpeed_frame s v _).2.1,
        applySpeed_overlays_length s v _⟩
    · exact ⟨rfl, rfl, rfl⟩

theorem attachOverlay_frame (s : State) (v : VideoId) (o : OverlayId) :
    ((attachOverlay s v o).videoElements = s.videoElements ∨
        (attachOverlay s v o).videoElements = weakDelete s.videoElements v) ∧
      (attachOverlay s v o).trackedVideos = s.trackedVideos ∧
      (attachOverlay s v o).overlays.length = s.overlays.length := by
  unfold attachOverlay
  simp only
  by_cases hc : appendThrows s v (findContainer (s.videos v).ancestors) = true
  · rw [if_pos hc]; exact ⟨Or.inr rfl, rfl, by simp⟩
  · rw [if_neg hc]
    obtain ⟨h1, h2, h3⟩ := applyInitialSpeed_frame
      (modifyOverlay (modifyOverlay s o fun o =>
        { o with stylePosition :=
            if (findContainer (s.videos v).ancestors).isNone then "fixed" else "absolute" }) o
        fun o => { o with parentNode := some (chosenContainer (findContainer (s.videos v).ancestors)) }) v
    refine ⟨Or.inl ?_, ?_, ?_⟩
    · rw [h1]; rfl
    · rw [h2]; rfl
    · rw [h3]; simp

theorem createOverlay_new (s : State) (v : VideoId) (h : weakHas s.videoElements v = false) :
    (createOverlay s v).2 = some s.overlays.length ∧
      (createOverlay s v).1.videoElements
        = weakSet s.videoElements v
            { overlay := s.overlays.length,
              position := (getDomainSettings s).position.getD { x := 10, y := 10 } } ∧
      (createOverlay s v).1.trackedVideos = s.trackedVideos ∧
      (createOverlay s v).1.overlays.length = s.overlays.length + 1 := by
  unfold createOverlay
  simp [h, updateSpeedDisplay]

theorem createOverlay_tracked (s : State) (v : VideoId) (h : weakHas s.videoElements v = true) :
    createOverlay s v = (s, none) := by
  unfold createOverlay
  simp [h]

theorem injectOverlay_tracked (s : State) (v : VideoId) (h : weakHas s.videoElements v = true) :
    injectOverlay s v = s := by
  unfold injectOverlay
  simp [h]

theorem createOverlay_snd (s : State) (v : VideoId) (h : weakHas s.videoElements v = false) :
    createOverlay s v = ((createOverlay s v).1, some s.overlays.length) := by
  unfold createOverlay
  simp [h]

theorem injectOverlay_unfold (s : State) (v : VideoId) (h0 : weakHas s.videoElements v = false)
    (hp : ((s.videos v).webkitKeys || (s.videos v).mozKeys) = false) :
    injectOverlay s v
      = attachOverlay (createOverlay { s with trackedVideos := s.trackedVideos ++ [v] } v).1 v
          s.overlays.length := by
  unfold injectOverlay
  rw [if_neg (by simp [h0]), if_neg (by simp [hp])]
  simp only
  rw [createOverlay_snd { s with trackedVideos := s.trackedVideos ++ [v] } v h0]

theorem injectOverlay_new (s : State) (v : VideoId) (h0 : weakHas s.videoElements v = false)
    (h1 : weakHas (injectOverlay s v).videoElements v = true) :
    (injectOverlay s v).videoElements
        = weakSet s.videoElements v
            { overlay := s.overlays.length,
              position := (getDomainSettings s).position.getD { x := 10, y := 10 } } ∧
      (injectOverlay s v).trackedVideos = s.trackedVideos ++ [v] ∧
      (injectOverlay s v).overlays.length = s.overlays.length + 1 := by
  by_cases hp : ((s.videos v).webkitKeys || (s.videos v).mozKeys) = true
  · have : injectOverlay s v = s := by
      unfold injectOverlay
      rw [if_neg (by simp [h0]), if_pos hp]
    rw [this, h0] at h1
    simp at h1
  · have hp2 : ((s.videos v).webkitKeys || (s.videos v).mozKeys) = false := by simpa using hp
    rw [injectOverlay_unfold s v h0 hp2] at h1 ⊢
    obtain ⟨_, c2, c3, c4⟩ := createOverlay_new
      { s with trackedVideos := s.trackedVideos ++ [v] } v h0
    obtain ⟨a1, a2, a3⟩ := attachOverlay_frame
      (createOverlay { s with trackedVideos := s.trackedVideos ++ [v] } v).1 v s.overlays.length
    rcases a1 with a1 | a1
    · rw [a1, a2, a3, c2, c3, c4]
      exact ⟨rfl, rfl, rfl⟩
    · rw [a1, weakHas_weakDelete] at h1
      simp at h1

end Content

/-! ## Lemmas on the settings store -/

namespace Background

theorem lookup_filter_ne (o : Obj) (key k : String) :
    (o.filter fun entry => entry.1 != key).lookup k = if k = key then none else o.lookup k := by
  induction o with
  | nil => simp
  | cons hd tl ih =>
    obtain ⟨k1, v1⟩ := hd
    by_cases h1 : k1 = key
    · subst h1
      simp only [List.filter_cons, bne_self_eq_false, Bool.false_eq_true, if_false, ih,
        List.lookup_cons]
      by_cases h2 : k = k1
      · simp [h2]
      · have : (k == k1) = false := by simpa using h2
        simp [h2, this]
    · have hb : (k1 != key) = true := by simpa using h1
      simp only [List.filter_cons, hb, if_true, List.lookup_cons, ih]
      by_cases h2 : k = k1
      · subst h2; simp [h1]
      · have : (k == k1) = false := by simpa using h2
        simp [this]

theorem get_delete (o : Obj) (key k : String) :
    (Obj.delete o key).get k = if k = key then none else o.get k :=
  lookup_filter_ne o key k

theorem lookup_filter_keep (o : Obj) (p : String → Bool) (k : String) (hk : p k = true) :
    (o.filter fun entry => p entry.1).lookup k = o.lookup k := by
  induction o with
  | nil => simp
  | cons hd tl ih =>
    obtain ⟨k1, v1⟩ := hd
    by_cases h2 : k = k1
    · subst h2
      simp [List.filter_cons, hk]
    · have hb : (k == k1) = false := by simpa using h2
      by_cases h3 : p k1 = true
      · simp [List.filter_cons, h3, List.lookup_cons, hb, ih]
      · simp [List.filter_cons, h3, List.lookup_cons, hb, ih]

theorem get_assign (base update : Obj) (k : String) :
    (Obj.assign base update).get k
      = match update.get k with
        | some v => some v
        | none => base.get k := by
  unfold Obj.assign Obj.get
  rw [List.lookup_append]
  cases h : update.lookup k with
  | some v => simp
  | none =>
    simp only [Option.none_or]
    exact lookup_filter_keep base (fun key => !(Obj.hasKey update key)) k
      (by simp [Obj.hasKey, h])

theorem get_pick (store : Obj) (keys : List String) (k : String) :
    (Obj.pick store keys).get k = if k ∈ keys then store.get k else none := by
  unfold Obj.pick Obj.get
  induction keys with
  | nil => simp
  | cons key rest ih =>
    rw [List.filterMap_cons]
    cases h : store.lookup key with
    | none =>
      simp only [Option.map_none']
      rw [ih]
      by_cases hk : k = key
      · subst hk; simp [h]
      · simp [hk]
    | some v =>
      simp only [Option.map_some', List.lookup_cons]
      by_cases hk : k = key
      · subst hk; simp [h]
      · have hb : (k == key) = false := by simpa using hk
        simp [hb, ih, hk]

theorem get_set (o : Obj) (key : String) (value : Json) (k : String) :
    (Obj.set o key value).get k = if k = key then some value else o.get k := by
  unfold Obj.set
  show List.lookup k ((key, value) :: Obj.delete o key) = _
  rw [List.lookup_cons]
  by_cases hk : k = key
  · subst hk; simp
  · have hb : (k == key) = false := by simpa using hk
    rw [hb]
    simp only [hk, if_false]
    have := get_delete o key k
    simp only [hk, if_false] at this
    exact this

theorem get_nil (k : String) : Obj.get [] k = none := rfl

theorem splitSettings_sync (p : Obj) (k : String) :
    (splitSettings p).1.get k
      = if k = "overlayVisible" ∨ k = "lastUsedSpeed" then none else p.get k := by
  unfold splitSettings
  by_cases h1 : k = "overlayVisible"
  · subst h1
    cases ho : p.get "overlayVisible" <;> cases hl : p.get "lastUsedSpeed" <;>
      simp [get_delete, ho]
  · by_cases h2 : k = "lastUsedSpeed"
    · subst h2
      cases ho : p.get "overlayVisible" <;> cases hl : p.get "lastUsedSpeed" <;>
        simp [get_delete, hl]
    · cases ho : p.get "overlayVisible" <;> cases hl : p.get "lastUsedSpeed" <;>
        simp [get_delete, h1, h2]

theorem splitSettings_local (p : Obj) (k : String) :
    (splitSettings p).2.get k
      = if k = "overlayVisible" ∨ k = "lastUsedSpeed" then p.get k else none := by
  unfold splitSettings
  by_cases h1 : k = "overlayVisible"
  · subst h1
    cases ho : p.get "overlayVisible" <;> cases hl : p.get "lastUsedSpeed" <;>
      simp [get_set, get_nil, ho]
  · by_cases h2 : k = "lastUsedSpeed"
    · subst h2
      cases ho : p.get "overlayVisible" <;> cases hl : p.get "lastUsedSpeed" <;>
        simp [get_set, get_nil, hl]
    · cases ho : p.get "overlayVisible" <;> cases hl : p.get "lastUsedSpeed" <;>
        simp [get_set, get_nil, h1, h2]

theorem get_of_length_zero (o : Obj) (k : String) (h : ¬ o.length > 0) : o.get k = none := by
  cases o with
  | nil => rfl
  | cons hd tl => simp at h

theorem saveSettings_items (st : Storage) (p : Obj) (hs : st.syncFails = false)
    (hl : st.localFails = false) (k : String) :
    (saveSettings st p).syncItems.get k
        = (match (splitSettings p).1.get k with
          | some v => some v
          | none => st.syncItems.get k) ∧
      (saveSettings st p).localItems.get k
        = (match (splitSettings p).2.get k with
          | some v => some v
          | none => st.localItems.get k) ∧
      (saveSettings st p).syncFails = false ∧ (saveSettings st p).localFails = false := by
  unfold saveSettings
  generalize splitSettings p = sp
  obtain ⟨a, b⟩ := sp
  simp only [hs, hl, and_false, if_false, Bool.false_eq_true]
  by_cases ha : a.length > 0 <;> by_cases hb : b.length > 0 <;>
    simp only [ha, hb, if_true, hl, and_false, if_false, Bool.false_eq_true, false_and] <;>
    refine ⟨?_, ?_, ?_, ?_⟩ <;>
    first
    | exact get_assign _ _ _
    | rw [get_of_length_zero a k ha]
    | rw [get_of_length_zero b k hb]
    | trivial

theorem getSettings_get (st : Storage) (hs : st.syncFails = false) (hl : st.localFails = false)
    (k : String) :
    (getSettings st).get k
      = if k = "overlayVisible" ∨ k = "lastUsedSpeed" then
          (match st.localItems.get k with
          | some v => some v
          | none => st.syncItems.get k)
        else st.syncItems.get k := by
  unfold getSettings
  simp only [hs, hl, if_false, Bool.false_eq_true]
  rw [get_assign, get_pick]
  by_cases h : k = "overlayVisible" ∨ k = "lastUsedSpeed"
  · have : k ∈ ["overlayVisible", "lastUsedSpeed"] := by simpa using h
    simp only [this, h, if_true]
  · have : k ∉ ["overlayVisible", "lastUsedSpeed"] := by simpa using h
    simp only [this, h, if_false]

end Background

/-! ## Lemmas on overlays, dragging and shortcuts -/

namespace Content

theorem overrideState_inRange : SpeedsInRange overrideState.settings := by
  refine ⟨by norm_num [overrideState, initialSettings], by norm_num [overrideState, initialSettings], ?_⟩
  intro domain entry o hm hs
  simp [overrideState] at hm
  obtain ⟨_, rfl⟩ := hm
  simp at hs
  subst hs
  norm_num

theorem keyCombo_ne_empty (e : KeyEvent) : keyCombo e ≠ "" := by
  intro h
  have := congrArg String.length h
  unfold keyCombo at this
  simp only [String.length_append] at this
  have h1 : ("$" : String).length = 1 := rfl
  have h0 : ("" : String).length = 0 := rfl
  rw [h1, h0] at this
  omega

/-- A key press whose chord equals none of the six bindings is not handled. -/
theorem handleKeyDown_unmatched (s : State) (e : KeyEvent)
    (h1 : keyCombo e ≠ s.settings.keyboardShortcuts.up)
    (h2 : keyCombo e ≠ s.settings.keyboardShortcuts.down)
    (h3 : keyCombo e ≠ s.settings.keyboardShortcuts.reset)
    (h4 : keyCombo e ≠ s.settings.keyboardShortcuts.fineUp)
    (h5 : keyCombo e ≠ s.settings.keyboardShortcuts.fineDown)
    (h6 : keyCombo e ≠ s.settings.keyboardShortcuts.toggleOverlay) :
    handleKeyDown s e = (s, { defaultPrevented := false, propagationStopped := false }) := by
  unfold handleKeyDown
  split
  · rfl
  · split
    · rfl
    · simp only [h1, h2, h3, h4, h5, h6, if_false]

theorem saveOverlayPosition_throws (s : State) (overlay : OverlayId) :
    saveOverlayPosition s overlay
      = (s, some "TypeError: videoElements.entries is not a function") := by
  unfold saveOverlayPosition weakEntries
  rfl

theorem drag_active (s : State) (e : MouseEvent) (overlay : OverlayId)
    (hd : s.isDragging = true)
    (ht : (queryDragging s).orElse (fun _ => e.hit) = some overlay) :
    drag s e
      = (modifyOverlay
          (modifyOverlay (modifyOverlay s overlay fun o => { o with dragging := true }) overlay
            fun o =>
              { o with
                left :=
                  max 0
                    (min (e.clientX - s.dragOffset.x)
                      (s.innerWidth - (s.layout overlay).offsetWidth)) })
          overlay
          fun o =>
            { o with
              top :=
                max 0
                  (min (e.clientY - s.dragOffset.y)
                    (s.innerHeight - (s.layout overlay).offsetHeight)) },
        some "TypeError: videoElements.entries is not a function") := by
  unfold drag
  simp only [hd, ht, Bool.not_true, Bool.false_eq_true, if_false]
  rw [saveOverlayPosition_throws]
  rfl

theorem drag_frame (s : State) (e : MouseEvent) :
    (drag s e).1.settings = s.settings ∧ (drag s e).1.videoElements = s.videoElements ∧
      (drag s e).1.syncSets = s.syncSets := by
  unfold drag
  split
  · exact ⟨rfl, rfl, rfl⟩
  · split
    · exact ⟨rfl, rfl, rfl⟩
    · simp only [saveOverlayPosition_throws]
      exact ⟨rfl, rfl, rfl⟩

theorem drag_active_overlay (s : State) (e : MouseEvent) (overlay : OverlayId) (o : Overlay)
    (hd : s.isDragging = true)
    (ht : (queryDragging s).orElse (fun _ => e.hit) = some overlay)
    (ho : s.overlays[overlay]? = some o) :
    (drag s e).1.overlays[overlay]?
      = some
          { o with
            dragging := true
            left :=
              max 0
                (min (e.clientX - s.dragOffset.x)
                  (s.innerWidth - (s.layout overlay).offsetWidth))
            top :=
              max 0
                (min (e.clientY - s.dragOffset.y)
                  (s.innerHeight - (s.layout overlay).offsetHeight)) } := by
  rw [drag_active s e overlay hd ht]
  simp only [modifyOverlay, List.getElem?_modify_eq, ho, Option.map_eq_map, Option.map_some']

theorem applySpeed_accepted_overlays (s : State) (video : VideoId) (r : ℚ)
    (h : (s.videos video).rateError (clamp r) = none) :
    (applySpeed s video r).overlays
      = match weakGet s.videoElements video with
        | some overlayData =>
          s.overlays.modify (fun o => { o with speedText := toFixed2 (clamp r) ++ "x" })
            overlayData.overlay
        | none => s.overlays := by
  unfold clamp at h
  unfold applySpeed
  simp only [h, saveSettings_videoElements, setPlaybackRate_videoElements]
  cases hg : weakGet s.videoElements video with
  | none => simp [setPlaybackRate]
  | some d => simp [updateSpeedDisplay, modifyOverlay, setPlaybackRate, clamp]

theorem weakGet_weakSet (m : List (VideoId × OverlayData)) (v : VideoId) (d : OverlayData) :
    weakGet (weakSet m v d) v = some d := by
  simp [weakGet, weakSet]

/-- The state in which `injectOverlay` reaches line 420 when the overlay was appended. -/
theorem injectOverlay_attached (s : State) (v : VideoId)
    (h0 : weakHas s.videoElements v = false)
    (hp : ((s.videos v).webkitKeys || (s.videos v).mozKeys) = false)
    (happend : appendThrows s v (findContainer (s.videos v).ancestors) = false) :
    ∃ s4 : State, injectOverlay s v = applyInitialSpeed s4 v ∧
      s4.videos = s.videos ∧ s4.settings = s.settings ∧ s4.currentDomain = s.currentDomain ∧
      (∃ position, weakGet s4.videoElements v
        = some { overlay := s.overlays.length, position := position }) ∧
      ∃ o, s4.overlays[s.overlays.length]? = some o ∧
        o.speedText = toFixed2 (s.videos v).playbackRate ++ "x" := by
  rw [injectOverlay_unfold s v h0 hp]
  have hc : (createOverlay { s with trackedVideos := s.trackedVideos ++ [v] } v).1
      = updateSpeedDisplay
          { s with
            trackedVideos := s.trackedVideos ++ [v]
            overlays := s.overlays ++
              [newOverlay ((getDomainSettings s).position.getD { x := 10, y := 10 })]
            videoElements := weakSet s.videoElements v
              { overlay := s.overlays.length,
                position := (getDomainSettings s).position.getD { x := 10, y := 10 } } }
          s.overlays.length (s.videos v).playbackRate := by
    unfold createOverlay
    simp only [h0]
    rfl
  rw [hc]
  unfold attachOverlay
  simp only
  rw [if_neg (by
    have : appendThrows (updateSpeedDisplay
          { s with
            trackedVideos := s.trackedVideos ++ [v]
            overlays := s.overlays ++
              [newOverlay ((getDomainSettings s).position.getD { x := 10, y := 10 })]
            videoElements := weakSet s.videoElements v
              { overlay := s.overlays.length,
                position := (getDomainSettings s).position.getD { x := 10, y := 10 } } }
          s.overlays.length (s.videos v).playbackRate) v
        (findContainer (s.videos v).ancestors)
        = appendThrows s v (findContainer (s.videos v).ancestors) := rfl
    simp only [updateSpeedDisplay_videos]
    rw [this, happend]
    simp)]
  refine ⟨_, rfl, rfl, rfl, rfl, ⟨_, weakGet_weakSet _ _ _⟩, ?_⟩
  simp [modifyOverlay, updateSpeedDisplay, List.getElem?_modify_eq]

theorem getDomainSettings_speed (s : State) : (getDomainSettings s).speed = domainOverride s := by
  unfold getDomainSettings domainOverride
  cases s.settings.domainSettings.lookup s.currentDomain <;> rfl

theorem applyInitialSpeed_override (s : State) (v : VideoId) (q : ℚ)
    (hov : domainOverride s = some q) (hq0 : q ≠ 0) (hauto : s.settings.autoApply = true) :
    applyInitialSpeed s v = applySpeed s v q := by
  unfold applyInitialSpeed
  simp [getDomainSettings_speed, hov, truthyNum, hq0, hauto]

theorem applyInitialSpeed_fallback (s : State) (v : VideoId)
    (h : domainOverride s = none ∨ s.settings.autoApply = false) :
    applyInitialSpeed s v
      = if s.settings.lastUsedSpeed ≠ 1 then applySpeed s v s.settings.lastUsedSpeed else s := by
  unfold applyInitialSpeed
  rcases h with h | h
  · simp [getDomainSettings_speed, h, truthyNum]
  · simp [getDomainSettings_speed, h]

theorem override_in_range (s : State) (hr : SpeedsInRange s.settings) (q : ℚ)
    (hov : domainOverride s = some q) : 1 / 4 ≤ q ∧ q ≤ 8 := by
  obtain ⟨_, _, hall⟩ := hr
  unfold domainOverride at hov
  cases hlk : s.settings.domainSettings.lookup s.currentDomain with
  | none => simp [hlk] at hov
  | some entry =>
    simp [hlk] at hov
    exact hall _ entry q (lookup_mem _ _ _ hlk) hov

theorem applyInitialSpeed_result (s : State) (v : VideoId) (n : OverlayId) (o : Overlay)
    (position : Position)
    (hr : SpeedsInRange s.settings)
    (hacc : ∀ q, 1 / 4 ≤ q → q ≤ 8 → (s.videos v).rateError q = none)
    (hg : weakGet s.videoElements v = some { overlay := n, position := position })
    (ho : s.overlays[n]? = some o)
    (ht : o.speedText = toFixed2 (s.videos v).playbackRate ++ "x") :
    (∃ shown, (applyInitialSpeed s v).overlays[n]? = some shown ∧
        shown.speedText = toFixed2 ((applyInitialSpeed s v).videos v).playbackRate ++ "x") ∧
      (∀ q, domainOverride s = some q → s.settings.autoApply = true →
        ((applyInitialSpeed s v).videos v).playbackRate = q) ∧
      ((domainOverride s = none ∨ s.settings.autoApply = false) →
        s.settings.lastUsedSpeed ≠ 1 →
        ((applyInitialSpeed s v).videos v).playbackRate = s.settings.lastUsedSpeed) ∧
      ((domainOverride s = none ∨ s.settings.autoApply = false) →
        s.settings.lastUsedSpeed = 1 →
        (applyInitialSpeed s v).videos v = s.videos v) := by
  have applied : ∀ q, 1 / 4 ≤ q → q ≤ 8 →
      ((applySpeed s v q).videos v).playbackRate = q ∧
      ∃ shown, (applySpeed s v q).overlays[n]? = some shown ∧
        shown.speedText = toFixed2 q ++ "x" := by
    intro q h1 h2
    have hc : clamp q = q := clamp_of_range q h1 h2
    have ha : (s.videos v).rateError (clamp q) = none := by rw [hc]; exact hacc q h1 h2
    constructor
    · rw [(applySpeed_accepted s v q ha).1, hc]; simp
    · rw [applySpeed_accepted_overlays s v q ha, hg, hc]
      simp [List.getElem?_modify_eq, ho]
  have fallback : (domainOverride s = none ∨ s.settings.autoApply = false) →
      (∃ shown, (applyInitialSpeed s v).overlays[n]? = some shown ∧
        shown.speedText = toFixed2 ((applyInitialSpeed s v).videos v).playbackRate ++ "x") ∧
      (s.settings.lastUsedSpeed ≠ 1 →
        ((applyInitialSpeed s v).videos v).playbackRate = s.settings.lastUsedSpeed) ∧
      (s.settings.lastUsedSpeed = 1 → (applyInitialSpeed s v).videos v = s.videos v) := by
    intro h
    rw [applyInitialSpeed_fallback s v h]
    by_cases hl : s.settings.lastUsedSpeed = 1
    · rw [if_neg (not_not.mpr hl)]
      exact ⟨⟨o, ho, ht⟩, fun hne => absurd hl hne, fun _ => rfl⟩
    · rw [if_pos hl]
      obtain ⟨a1, shown, a2, a3⟩ := applied s.settings.lastUsedSpeed hr.2.1.1 hr.2.1.2
      exact ⟨⟨shown, a2, by rw [a3, a1]⟩, fun _ => a1, fun h1 => absurd h1 hl⟩
  refine ⟨?_, ?_, fun h => (fallback h).2.1, fun h => (fallback h).2.2⟩
  · cases hov : domainOverride s with
    | none => exact (fallback (Or.inl hov)).1
    | some q =>
      by_cases hauto : s.settings.autoApply = true
      · rw [applyInitialSpeed_override s v q hov (override_ne_zero s hr q hov) hauto]
        obtain ⟨h1, h2⟩ := override_in_range s hr q hov
        obtain ⟨a1, shown, a2, a3⟩ := applied q h1 h2
        exact ⟨shown, a2, by rw [a3, a1]⟩
      · exact (fallback (Or.inr (by simpa using hauto))).1
  · intro q hov hauto
    rw [applyInitialSpeed_override s v q hov (override_ne_zero s hr q hov) hauto]
    obtain ⟨h1, h2⟩ := override_in_range s hr q hov
    exact (applied q h1 h2).1

theorem lastUsedState_inRange : SpeedsInRange lastUsedState.settings := by
  refine ⟨by norm_num [lastUsedState, initialSettings],
    by norm_num [lastUsedState, initialSettings], ?_⟩
  intro domain entry o hm
  simp [lastUsedState, initialSettings] at hm

theorem toFixed2_seven_quarters : toFixed2 (7 / 4) = "1.75" := by
  unfold toFixed2
  have h1 : (⌊|(7 / 4 : ℚ)| * 100 + 1 / 2⌋).toNat = 175 := by
    have : |(7 / 4 : ℚ)| = 7 / 4 := abs_of_pos (by norm_num)
    rw [this]
    have : ⌊(7 / 4 : ℚ) * 100 + 1 / 2⌋ = 175 := by norm_num
    rw [this]; rfl
  simp only [h1]
  have h2 : ¬ ((7 / 4 : ℚ) < 0) := by norm_num
  simp only [h2, if_false]
  decide

end Content

/-! ## Lemmas on failures, buttons, messages and discovery -/

namespace Content

/-- What `applySpeed` does when the host rejects the clamped value. -/
theorem applySpeed_rejected (s : State) (video : VideoId) (r : ℚ) (message : String)
    (h : (s.videos video).rateError (clamp r) = some message) :
    applySpeed s video r
      = if message ≠ "" ∧ includes message "Extension context invalidated" then s
        else
          match (s.videos video).rateError 1 with
          | none =>
            { setPlaybackRate s video 1 with
              settings := { (setPlaybackRate s video 1).settings with lastUsedSpeed := 1 } }
          | some _ => s := by
  unfold clamp at h
  unfold applySpeed
  simp only [h]

theorem toFixed2_zero : toFixed2 0 = "0.00" := by
  unfold toFixed2
  have h1 : (⌊|(0 : ℚ)| * 100 + 1 / 2⌋).toNat = 0 := by
    have : ⌊|(0 : ℚ)| * 100 + 1 / 2⌋ = 0 := by norm_num
    rw [this]; rfl
  simp only [h1]
  have h2 : ¬ ((0 : ℚ) < 0) := by norm_num
  simp only [h2, if_false]
  decide

theorem toFixed2_quarter : toFixed2 (1 / 4) = "0.25" := by
  unfold toFixed2
  have h1 : (⌊|(1 / 4 : ℚ)| * 100 + 1 / 2⌋).toNat = 25 := by
    have : |(1 / 4 : ℚ)| = 1 / 4 := abs_of_pos (by norm_num)
    rw [this]
    have : ⌊(1 / 4 : ℚ) * 100 + 1 / 2⌋ = 25 := by norm_num
    rw [this]; rfl
  simp only [h1]
  have h2 : ¬ ((1 / 4 : ℚ) < 0) := by norm_num
  simp only [h2, if_false]
  decide

theorem applySpeed_toasts (s : State) (v : VideoId) (r : ℚ) :
    (applySpeed s v r).toasts = s.toasts := by
  unfold applySpeed
  simp only
  split
  · split <;> simp [updateSpeedDisplay, modifyOverlay, setPlaybackRate, saveSettings] <;>
      split <;> rfl
  · split
    · rfl
    · split <;> rfl

/-- What a click on the decrease or increase button does when the host accepts the clamped
value: `step` is `-0.25` or `0.25`. -/
theorem click_result (s : State) (v : VideoId) (step : ℚ) (d : OverlayData) (o : Overlay)
    (hacc : (s.videos v).rateError (clamp ((s.videos v).playbackRate + step)) = none)
    (hg : weakGet s.videoElements v = some d) (ho : s.overlays[d.overlay]? = some o) :
    ((applySpeed s v ((s.videos v).playbackRate + step)).videos v).playbackRate
        = clamp ((s.videos v).playbackRate + step) ∧
      (applySpeed s v ((s.videos v).playbackRate + step)).overlays[d.overlay]?
        = some { o with speedText := toFixed2 (clamp ((s.videos v).playbackRate + step)) ++ "x" } ∧
      (applySpeed s v ((s.videos v).playbackRate + step)).toasts = s.toasts := by
  refine ⟨?_, ?_, applySpeed_toasts s v _⟩
  · rw [(applySpeed_accepted s v _ hacc).1]; simp
  · rw [applySpeed_accepted_overlays s v _ hacc, hg]
    simp [List.getElem?_modify_eq, ho]

theorem applySpeed_lastUsedSpeed (s : State) (v : VideoId) (r : ℚ) :
    (applySpeed s v r).settings.lastUsedSpeed = clamp r ∨
      (applySpeed s v r).settings.lastUsedSpeed = 1 ∨
      (applySpeed s v r).settings.lastUsedSpeed = s.settings.lastUsedSpeed := by
  cases h : (s.videos v).rateError (clamp r) with
  | none =>
    left
    rw [(applySpeed_accepted s v r h).2]
  | some message =>
    unfold clamp at h
    unfold applySpeed
    simp only [h]
    split
    · right; right; rfl
    · split
      · right; left; rfl
      · right; right; rfl

theorem applySpeed_inRange (s : State) (v : VideoId) (r : ℚ)
    (h : SpeedsInRange s.settings) : SpeedsInRange (applySpeed s v r).settings := by
  obtain ⟨hd, hl, ho⟩ := h
  obtain ⟨_, _, _, f4, _, f6, _⟩ := applySpeed_frame s v r
  refine ⟨by rw [f4]; exact hd, ?_, by rw [f6]; exact ho⟩
  rcases applySpeed_lastUsedSpeed s v r with e | e | e
  · rw [e]; exact clamp_range r
  · rw [e]; norm_num
  · rw [e]; exact hl

theorem foldl_inRange (f : State → VideoId → State)
    (hf : ∀ s v, SpeedsInRange s.settings → SpeedsInRange (f s v).settings)
    (l : List VideoId) :
    ∀ s : State, SpeedsInRange s.settings → SpeedsInRange (l.foldl f s).settings := by
  induction l with
  | nil => intro s h; exact h
  | cons w l ih => intro s h; exact ih _ (hf s w h)

theorem applySpeedToAllVideos_inRange (s : State) (h : SpeedsInRange s.settings) :
    SpeedsInRange (applySpeedToAllVideos s).settings := by
  unfold applySpeedToAllVideos
  apply foldl_inRange _ _ _ s h
  intro t v ht
  unfold applySpeedToAllVideosStep
  split
  · exact applySpeed_inRange t v _ ht
  · exact ht

theorem updateOverlaysVisibility_settings (s : State) :
    (updateOverlaysVisibility s).settings = s.settings := by
  unfold updateOverlaysVisibility
  generalize s.trackedVideos = l
  induction l generalizing s with
  | nil => rfl
  | cons w l ih =>
    simp only [List.foldl_cons]
    rw [ih]
    split
    · split <;> rfl
    · rfl

theorem toggleOverlays_inRange (s : State) (h : SpeedsInRange s.settings) :
    SpeedsInRange (toggleOverlays s).settings := by
  unfold toggleOverlays
  simp only [updateOverlaysVisibility_settings, saveSettings_settings]
  exact h

theorem handleKeyDown_inRange (s : State) (e : KeyEvent) (h : SpeedsInRange s.settings) :
    SpeedsInRange (handleKeyDown s e).1.settings := by
  unfold handleKeyDown
  split
  · exact h
  · split
    · exact h
    · simp only
      split_ifs <;>
        first
        | exact h
        | exact applySpeed_inRange _ _ _ h
        | exact applySpeed_inRange _ _ _ (toggleOverlays_inRange s h)

theorem mergeSettings_inRange (st : Settings) (update : SettingsUpdate)
    (h : SpeedsInRange st) (hu : UpdateInRange update) :
    SpeedsInRange (mergeSettings st update) := by
  obtain ⟨hd, hl, ho⟩ := h
  obtain ⟨ud, ul, uo⟩ := hu
  refine ⟨?_, ?_, ?_⟩
  · show 1 / 4 ≤ update.defaultSpeed.getD st.defaultSpeed ∧
      update.defaultSpeed.getD st.defaultSpeed ≤ 8
    cases hq : update.defaultSpeed with
    | none => exact hd
    | some q => exact ud q hq
  · show 1 / 4 ≤ update.lastUsedSpeed.getD st.lastUsedSpeed ∧
      update.lastUsedSpeed.getD st.lastUsedSpeed ≤ 8
    cases hq : update.lastUsedSpeed with
    | none => exact hl
    | some q => exact ul q hq
  · show ∀ domain entry o, (domain, entry) ∈ update.domainSettings.getD st.domainSettings →
      entry.speed = some o → 1 / 4 ≤ o ∧ o ≤ 8
    cases hq : update.domainSettings with
    | none => exact ho
    | some table => exact uo table hq

theorem onUpdateSettings_settings (s : State) (update : SettingsUpdate) :
    (onUpdateSettings s update).settings.defaultSpeed
      = update.defaultSpeed.getD s.settings.defaultSpeed := by
  unfold onUpdateSettings
  simp only [updateOverlaysVisibility_settings]
  split
  · unfold applySpeedToAllVideos
    rw [(foldl_step_same _ _).2.1]
    rfl
  · rfl

theorem onUpdateSettings_inRange (s : State) (update : SettingsUpdate)
    (h : SpeedsInRange s.settings) (hu : UpdateInRange update) :
    SpeedsInRange (onUpdateSettings s update).settings := by
  unfold onUpdateSettings
  simp only [updateOverlaysVisibility_settings]
  split
  · exact applySpeedToAllVideos_inRange _ (mergeSettings_inRange _ _ h hu)
  · exact mergeSettings_inRange _ _ h hu

theorem sampleState_inRange : SpeedsInRange sampleState.settings := by
  refine ⟨by norm_num [sampleState, initialSettings],
    by norm_num [sampleState, initialSettings], ?_⟩
  intro domain entry o hm
  simp [sampleState, initialSettings] at hm

theorem popupUpdate_inRange : UpdateInRange popupUpdate := by
  refine ⟨?_, ?_, ?_⟩
  · intro q hq
    simp [popupUpdate] at hq
    subst hq
    norm_num
  · intro q hq
    simp [popupUpdate] at hq
  · intro table hq
    simp [popupUpdate] at hq

theorem findAllShadowVideos_eq (node : Element) (videos : List VideoId) :
    findAllShadowVideos node videos
      = if node.accessThrows then videos
        else
          node.children.foldl (fun acc child => findAllShadowVideos child acc)
            (match node.shadowRoot with
              | some kids =>
                (descendants kids).foldl (fun acc child => findAllShadowVideos child acc)
                  (videos ++ queryVideos kids)
              | none => videos) := by
  rw [findAllShadowVideos.eq_1]
  split
  · rfl
  · simp only
    rw [← List.foldl_attach node.children (fun acc child => findAllShadowVideos child acc)]
    congr 1
    split
    · rename_i kids heq
      rw [heq]
      exact List.foldl_attach (descendants kids)
        (fun acc child => findAllShadowVideos child acc) _
    · rename_i heq
      rw [heq]

theorem mem_descendants_self (l : List Element) :
    ∀ e, e ∈ l → e ∈ descendants l := by
  induction l using descendants.induct with
  | case1 => intro e h; simp at h
  | case2 id localName accessThrows children shadowRoot rest _ ih2 =>
    intro e h
    simp only [descendants, List.mem_cons, List.mem_append]
    rcases List.mem_cons.mp h with h | h
    · exact Or.inl h
    · exact Or.inr (Or.inr (ih2 e h))

theorem mem_descendants_children (l : List Element) :
    ∀ p e, p ∈ descendants l → e ∈ p.children → e ∈ descendants l := by
  induction l using descendants.induct with
  | case1 => intro p e h; simp [descendants] at h
  | case2 id localName accessThrows children shadowRoot rest ih1 ih2 =>
    intro p e h he
    simp only [descendants, List.mem_cons, List.mem_append] at h ⊢
    rcases h with h | h | h
    · subst h
      exact Or.inr (Or.inl (mem_descendants_self children e he))
    · exact Or.inr (Or.inl (ih1 p e h he))
    · exact Or.inr (Or.inr (ih2 p e h he))

theorem reach_of_mem_descendants (l : List Element) :
    ∀ e, e ∈ descendants l → ∃ root, root ∈ l ∧ Relation.ReflTransGen Link root e := by
  induction l using descendants.induct with
  | case1 => intro e h; simp [descendants] at h
  | case2 id localName accessThrows children shadowRoot rest ih1 ih2 =>
    intro e h
    simp only [descendants, List.mem_cons, List.mem_append] at h
    rcases h with h | h | h
    · subst h
      exact ⟨_, List.mem_cons_self _ _, Relation.ReflTransGen.refl⟩
    · obtain ⟨root, hr, hp⟩ := ih1 e h
      exact ⟨_, List.mem_cons_self _ _,
        Relation.ReflTransGen.head (Or.inl hr) hp⟩
    · obtain ⟨root, hr, hp⟩ := ih2 e h
      exact ⟨root, List.mem_cons_of_mem _ hr, hp⟩

theorem mem_queryVideos (l : List Element) (x : VideoId) :
    x ∈ queryVideos l ↔ ∃ e, e ∈ descendants l ∧ e.localName = "video" ∧ e.id = x := by
  unfold queryVideos
  simp only [List.mem_map, List.mem_filter, decide_eq_true_eq]
  constructor
  · rintro ⟨e, ⟨h1, h2⟩, h3⟩; exact ⟨e, h1, h2, h3⟩
  · rintro ⟨e, h1, h2, h3⟩; exact ⟨e, ⟨h1, h2⟩, h3⟩

theorem foldl_grows {α : Type} (f : List VideoId → α → List VideoId) (l : List α)
    (hf : ∀ c, c ∈ l → ∀ acc x, x ∈ acc → x ∈ f acc c) :
    ∀ init x, x ∈ init → x ∈ l.foldl f init := by
  induction l with
  | nil => intro init x h; exact h
  | cons c l ih =>
    intro init x h
    simp only [List.foldl_cons]
    exact ih (fun d hd => hf d (List.mem_cons_of_mem _ hd)) _ x
      (hf c (List.mem_cons_self _ _) init x h)

theorem foldl_reaches {α : Type} (f : List VideoId → α → List VideoId) (l : List α)
    (hf : ∀ c, c ∈ l → ∀ acc x, x ∈ acc → x ∈ f acc c) (c : α) (hc : c ∈ l) (x : VideoId)
    (hx : ∀ acc, x ∈ f acc c) :
    ∀ init, x ∈ l.foldl f init := by
  induction l with
  | nil => simp at hc
  | cons d l ih =>
    intro init
    simp only [List.foldl_cons]
    rcases List.mem_cons.mp hc with h | h
    · subst h
      exact foldl_grows f l (fun e he => hf e (List.mem_cons_of_mem _ he)) _ x (hx init)
    · exact ih (fun e he => hf e (List.mem_cons_of_mem _ he)) h _

theorem foldl_origin {α : Type} (f : List VideoId → α → List VideoId) (l : List α)
    (Q : α → Prop) (x : VideoId)
    (hf : ∀ c, c ∈ l → ∀ acc, x ∈ f acc c → x ∈ acc ∨ Q c) :
    ∀ init, x ∈ l.foldl f init → x ∈ init ∨ ∃ c, c ∈ l ∧ Q c := by
  induction l with
  | nil => intro init h; exact Or.inl h
  | cons d l ih =>
    intro init h
    simp only [List.foldl_cons] at h
    rcases ih (fun e he => hf e (List.mem_cons_of_mem _ he)) _ h with h1 | ⟨c, hc, hq⟩
    · rcases hf d (List.mem_cons_self _ _) init h1 with h2 | h2
      · exact Or.inl h2
      · exact Or.inr ⟨d, List.mem_cons_self _ _, h2⟩
    · exact Or.inr ⟨c, List.mem_cons_of_mem _ hc, hq⟩

theorem findAllShadowVideos_grows (node : Element) (videos : List VideoId) :
    ∀ x, x ∈ videos → x ∈ findAllShadowVideos node videos := by
  induction node, videos using findAllShadowVideos.induct with
  | case1 node videos ht =>
    intro x hx
    rw [findAllShadowVideos_eq, if_pos ht]; exact hx
  | case2 node videos ht ih1 ih2 =>
    intro x hx
    rw [findAllShadowVideos_eq, if_neg ht]
    apply foldl_grows _ _ (fun c hc acc y hy => ih2 acc c hc y hy)
    cases hs : node.shadowRoot with
    | none => exact hx
    | some kids =>
      apply foldl_grows _ _ (fun c hc acc y hy => ih1 kids hs acc c hc y hy)
      exact List.mem_append_left _ hx

theorem findAllShadowVideos_sound (node : Element) (videos : List VideoId) :
    ∀ x, x ∈ findAllShadowVideos node videos →
      x ∈ videos ∨
        ∃ e, Relation.ReflTransGen Link node e ∧ e.localName = "video" ∧ e.id = x := by
  induction node, videos using findAllShadowVideos.induct with
  | case1 node videos ht =>
    intro x hx
    rw [findAllShadowVideos_eq, if_pos ht] at hx; exact Or.inl hx
  | case2 node videos ht ih1 ih2 =>
    intro x hx
    rw [findAllShadowVideos_eq, if_neg ht] at hx
    rcases foldl_origin _ node.children
      (fun c => ∃ e, Relation.ReflTransGen Link c e ∧ e.localName = "video" ∧ e.id = x) x
      (fun c hc acc h => ih2 acc c hc x h) _ hx with h | ⟨c, hc, e, hp, hv, hid⟩
    · cases hs : node.shadowRoot with
      | none => rw [hs] at h; exact Or.inl h
      | some kids =>
        rw [hs] at h
        simp only at h
        rcases foldl_origin _ (descendants kids)
          (fun c => ∃ e, Relation.ReflTransGen Link c e ∧ e.localName = "video" ∧ e.id = x) x
          (fun c hc acc h => ih1 kids hs acc c hc x h) _ h with h | ⟨c, hc, e, hp, hv, hid⟩
        · rcases List.mem_append.mp h with h | h
          · exact Or.inl h
          · obtain ⟨e, he, hv, hid⟩ := (mem_queryVideos kids x).mp h
            obtain ⟨root, hr, hp⟩ := reach_of_mem_descendants kids e he
            exact Or.inr ⟨e, Relation.ReflTransGen.head (Or.inr ⟨kids, hs, hr⟩) hp, hv, hid⟩
        · obtain ⟨root, hr, hp2⟩ := reach_of_mem_descendants kids c hc
          exact Or.inr ⟨e,
            Relation.ReflTransGen.head (Or.inr ⟨kids, hs, hr⟩) (hp2.trans hp), hv, hid⟩
    · exact Or.inr ⟨e, Relation.ReflTransGen.head (Or.inl hc) hp, hv, hid⟩

theorem findAllShadowVideos_complete (node : Element) (videos : List VideoId) :
    (∀ e, Relation.ReflTransGen Link node e → e.accessThrows = false) →
      ∀ host kids e, Relation.ReflTransGen Link node host → host.shadowRoot = some kids →
        e ∈ descendants kids → e.localName = "video" →
        e.id ∈ findAllShadowVideos node videos := by
  induction node, videos using findAllShadowVideos.induct with
  | case1 node videos ht =>
    intro hno
    rw [hno node Relation.ReflTransGen.refl] at ht
    exact absurd ht (by simp)
  | case2 node videos ht ih1 ih2 =>
    intro hno host kids e hpath hs he hv
    rw [findAllShadowVideos_eq, if_neg ht]
    have grows : ∀ c, c ∈ node.children → ∀ acc x, x ∈ acc → x ∈ findAllShadowVideos c acc :=
      fun c _ acc x hx => findAllShadowVideos_grows c acc x hx
    rcases Relation.ReflTransGen.cases_head hpath with heq | ⟨c, hlink, hrest⟩
    · subst heq
      apply foldl_grows _ _ grows
      rw [hs]
      simp only
      apply foldl_grows _ _ (fun c _ acc x hx => findAllShadowVideos_grows c acc x hx)
      exact List.mem_append_right _ ((mem_queryVideos kids e.id).mpr ⟨e, he, hv, rfl⟩)
    · have hnoc : ∀ e, Relation.ReflTransGen Link c e → e.accessThrows = false :=
        fun e2 h2 => hno e2 (Relation.ReflTransGen.head hlink h2)
      rcases hlink with hc | ⟨kids2, hs2, hc⟩
      · exact foldl_reaches _ _ grows c hc e.id
          (fun acc => ih2 acc c hc hnoc host kids e hrest hs he hv) _
      · apply foldl_grows _ _ grows
        rw [hs2]
        simp only
        exact foldl_reaches _ _ (fun c _ acc x hx => findAllShadowVideos_grows c acc x hx) c
          (mem_descendants_self kids2 c hc) e.id
          (fun acc => ih1 kids2 hs2 acc c (mem_descendants_self kids2 c hc) hnoc host kids e
            hrest hs he hv) _

/-- A path of links either stays in the light DOM or ends below the shadow root of a
reachable host. -/
theorem path_split (root e : Element) (h : Relation.ReflTransGen Link root e) :
    e ∈ descendants [root] ∨
      ∃ host kids, Relation.ReflTransGen Link root host ∧ host.shadowRoot = some kids ∧
        e ∈ descendants kids := by
  induction h with
  | refl => exact Or.inl (mem_descendants_self _ _ (List.mem_singleton.mpr rfl))
  | tail hp hl ih =>
    rename_i p e2
    rcases hl with hc | ⟨kids2, hs2, hc⟩
    · rcases ih with h1 | ⟨host, kids, h1, h2, h3⟩
      · exact Or.inl (mem_descendants_children _ p e2 h1 hc)
      · exact Or.inr ⟨host, kids, h1, h2, mem_descendants_children _ p e2 h3 hc⟩
    · exact Or.inr ⟨p, kids2, hp, hs2, mem_descendants_self _ _ hc⟩

theorem mem_descendants_of_root (l : List Element) :
    ∀ root e, root ∈ l → e ∈ descendants [root] → e ∈ descendants l := by
  induction l using descendants.induct with
  | case1 => intro root e hr; simp at hr
  | case2 id localName accessThrows children shadowRoot rest _ ih2 =>
    intro root e hr h
    rcases List.mem_cons.mp hr with hr | hr
    · subst hr
      simp only [descendants, List.mem_cons, List.mem_append, List.append_nil,
        List.not_mem_nil, or_false] at h ⊢
      rcases h with h | h
      · exact Or.inl h
      · exact Or.inr (Or.inl h)
    · simp only [descendants, List.mem_cons, List.mem_append]
      exact Or.inr (Or.inr (ih2 root e hr h))

theorem mem_findAllVideos (document : List Element)
    (hno : ∀ e, Reachable document e → e.accessThrows = false) (x : VideoId) :
    x ∈ findAllVideos document
      ↔ ∃ e, Reachable document e ∧ e.localName = "video" ∧ e.id = x := by
  unfold findAllVideos
  constructor
  · intro h
    rcases foldl_origin _ document
      (fun c => ∃ e, Relation.ReflTransGen Link c e ∧ e.localName = "video" ∧ e.id = x) x
      (fun c _ acc hx => findAllShadowVideos_sound c acc x hx) _ h with h | ⟨c, hc, e, hp, hv, hid⟩
    · obtain ⟨e, he, hv, hid⟩ := (mem_queryVideos document x).mp h
      exact ⟨e, reach_of_mem_descendants document e he, hv, hid⟩
    · exact ⟨e, ⟨c, hc, hp⟩, hv, hid⟩
  · rintro ⟨e, ⟨root, hr, hp⟩, hv, hid⟩
    subst hid
    have grows : ∀ c, c ∈ document → ∀ acc x, x ∈ acc → x ∈ findAllShadowVideos c acc :=
      fun c _ acc x hx => findAllShadowVideos_grows c acc x hx
    rcases path_split root e hp with h | ⟨host, kids, h1, h2, h3⟩
    · apply foldl_grows _ _ grows
      exact (mem_queryVideos document e.id).mpr
        ⟨e, mem_descendants_of_root document root e hr h, hv, rfl⟩
    · exact foldl_reaches _ _ grows root hr e.id
        (fun acc => findAllShadowVideos_complete root acc
          (fun e2 h2 => hno e2 ⟨root, hr, h2⟩) host kids e h1 h2 h3 hv) _

theorem applySpeed_videos_cases (s : State) (v : VideoId) (r : ℚ) (x : VideoId) :
    (applySpeed s v r).videos x = s.videos x ∨
      ∃ q, (applySpeed s v r).videos x = { s.videos x with playbackRate := q } := by
  have key : ∀ q, (setPlaybackRate s v q).videos x = s.videos x ∨
      ∃ q2, (setPlaybackRate s v q).videos x = { s.videos x with playbackRate := q2 } := by
    intro q
    by_cases hx : x = v
    · subst hx
      right
      exact ⟨q, by simp [setPlaybackRate]⟩
    · left
      exact setPlaybackRate_other s v x q hx
  unfold applySpeed
  simp only
  split
  · split
    · simpa using key _
    · simpa using key _
  · split
    · exact Or.inl rfl
    · split
      · exact key 1
      · exact Or.inl rfl

theorem isValidVideo_congr (s t : State) (x : VideoId)
    (h : t.videos x = s.videos x ∨ ∃ q, t.videos x = { s.videos x with playbackRate := q }) :
    isValidVideo t x = isValidVideo s x := by
  unfold isValidVideo
  rcases h with h | ⟨q, h⟩ <;> rw [h]

theorem applyInitialSpeed_videos_cases (s : State) (v x : VideoId) :
    (applyInitialSpeed s v).videos x = s.videos x ∨
      ∃ q, (applyInitialSpeed s v).videos x = { s.videos x with playbackRate := q } := by
  unfold applyInitialSpeed
  simp only
  split
  · exact applySpeed_videos_cases s v _ x
  · split
    · exact applySpeed_videos_cases s v _ x
    · exact Or.inl rfl

theorem attachOverlay_videos_cases (s : State) (v : VideoId) (o : OverlayId) (x : VideoId) :
    (attachOverlay s v o).videos x = s.videos x ∨
      ∃ q, (attachOverlay s v o).videos x = { s.videos x with playbackRate := q } := by
  unfold attachOverlay
  simp only
  by_cases hc : appendThrows s v (findContainer (s.videos v).ancestors) = true
  · rw [if_pos hc]; exact Or.inl rfl
  · rw [if_neg hc]
    exact applyInitialSpeed_videos_cases _ v x

theorem createOverlay_videos (s : State) (v : VideoId) :
    (createOverlay s v).1.videos = s.videos := by
  unfold createOverlay
  split
  · rfl
  · rfl

theorem injectOverlay_videos_cases (s : State) (v x : VideoId) :
    (injectOverlay s v).videos x = s.videos x ∨
      ∃ q, (injectOverlay s v).videos x = { s.videos x with playbackRate := q } := by
  by_cases h0 : weakHas s.videoElements v = true
  · rw [injectOverlay_tracked s v h0]; exact Or.inl rfl
  · have h0f : weakHas s.videoElements v = false := by simpa using h0
    by_cases hp : ((s.videos v).webkitKeys || (s.videos v).mozKeys) = true
    · have : injectOverlay s v = s := by
        unfold injectOverlay
        rw [if_neg (by simp [h0f]), if_pos hp]
      rw [this]; exact Or.inl rfl
    · have hp2 : ((s.videos v).webkitKeys || (s.videos v).mozKeys) = false := by simpa using hp
      rw [injectOverlay_unfold s v h0f hp2]
      have hv := createOverlay_videos { s with trackedVideos := s.trackedVideos ++ [v] } v
      have := attachOverlay_videos_cases
        (createOverlay { s with trackedVideos := s.trackedVideos ++ [v] } v).1 v
        s.overlays.length x
      rw [hv] at this
      exact this

theorem weakGet_weakDelete_other (m : List (VideoId × OverlayData)) (w v : VideoId)
    (h : v ≠ w) : weakGet (weakDelete m w) v = weakGet m v := by
  unfold weakGet weakDelete
  induction m with
  | nil => rfl
  | cons hd tl ih =>
    obtain ⟨k, d⟩ := hd
    by_cases hk : k = w
    · subst hk
      have hb : (v == k) = false := by simpa using h
      simp [List.filter_cons, List.lookup_cons, hb, ih]
    · have hb : (k != w) = true := by simpa using hk
      simp only [List.filter_cons, hb, if_true, List.lookup_cons, ih]

theorem weakGet_weakSet_other (m : List (VideoId × OverlayData)) (w v : VideoId)
    (d : OverlayData) (h : v ≠ w) : weakGet (weakSet m w d) v = weakGet m v := by
  have hb : (v == w) = false := by simpa using h
  have := weakGet_weakDelete_other m w v h
  unfold weakGet at this ⊢
  unfold weakSet
  rw [List.lookup_cons, hb]
  exact this

theorem injectOverlay_weakGet_other (s : State) (w v : VideoId) (h : v ≠ w) :
    weakGet (injectOverlay s w).videoElements v = weakGet s.videoElements v := by
  by_cases h0 : weakHas s.videoElements w = true
  · rw [injectOverlay_tracked s w h0]
  · have h0f : weakHas s.videoElements w = false := by simpa using h0
    by_cases hp : ((s.videos w).webkitKeys || (s.videos w).mozKeys) = true
    · have : injectOverlay s w = s := by
        unfold injectOverlay
        rw [if_neg (by simp [h0f]), if_pos hp]
      rw [this]
    · have hp2 : ((s.videos w).webkitKeys || (s.videos w).mozKeys) = false := by simpa using hp
      rw [injectOverlay_unfold s w h0f hp2]
      obtain ⟨_, c2, _, _⟩ := createOverlay_new
        { s with trackedVideos := s.trackedVideos ++ [w] } w h0f
      obtain ⟨a1, _, _⟩ := attachOverlay_frame
        (createOverlay { s with trackedVideos := s.trackedVideos ++ [w] } w).1 w
        s.overlays.length
      rcases a1 with a1 | a1
      · rw [a1, c2]; exact weakGet_weakSet_other _ w v _ h
      · rw [a1, c2, weakGet_weakDelete_other _ w v h]
        exact weakGet_weakSet_other _ w v _ h

theorem scanForVideosStep_valid (s : State) (w x : VideoId) :
    isValidVideo (scanForVideosStep s w) x = isValidVideo s x := by
  unfold scanForVideosStep
  split
  · rfl
  · split
    · rfl
    · exact isValidVideo_congr s _ x (injectOverlay_videos_cases s w x)

theorem scanForVideosStep_entry (s : State) (w v : VideoId)
    (h : weakGet (scanForVideosStep s w).videoElements v ≠ weakGet s.videoElements v) :
    v = w ∧ isValidVideo s v = true ∧ weakHas s.videoElements v = false := by
  unfold scanForVideosStep at h
  by_cases hv : isValidVideo s w = true
  · by_cases hh : weakHas s.videoElements w = true
    · simp [hv, hh] at h
    · simp only [hv, hh, Bool.not_true, Bool.false_eq_true, if_false] at h
      by_cases hvw : v = w
      · subst hvw
        exact ⟨rfl, hv, by simpa using hh⟩
      · exact absurd (injectOverlay_weakGet_other s w v hvw) h
  · simp [hv] at h

theorem scan_entries (l : List VideoId) :
    ∀ (s : State) (v : VideoId),
      weakGet (l.foldl scanForVideosStep s).videoElements v ≠ weakGet s.videoElements v →
      v ∈ l ∧ isValidVideo s v = true ∧ weakHas s.videoElements v = false := by
  induction l with
  | nil => intro s v h; exact absurd rfl h
  | cons w l ih =>
    intro s v h
    simp only [List.foldl_cons] at h
    by_cases hstep : weakGet (scanForVideosStep s w).videoElements v = weakGet s.videoElements v
    · rw [← hstep] at h
      obtain ⟨h1, h2, h3⟩ := ih _ v h
      refine ⟨List.mem_cons_of_mem _ h1, ?_, ?_⟩
      · rw [← scanForVideosStep_valid s w v]; exact h2
      · unfold weakHas weakGet at *
        rw [← hstep]; exact h3
    · obtain ⟨h1, h2, h3⟩ := scanForVideosStep_entry s w v hstep
      exact ⟨h1 ▸ List.mem_cons_self _ _, h2, h3⟩

theorem sampleDocument_noThrow :
    ∀ e, Reachable sampleDocument e → e.accessThrows = false := by
  have all : ∀ e, Reachable sampleDocument e →
      e ∈ [Element.mk 100 "html" false
            [.mk 101 "div" false [] (some [.mk 7 "video" false [] none]),
              .mk 3 "video" false [] none] none,
          Element.mk 101 "div" false [] (some [.mk 7 "video" false [] none]),
          Element.mk 7 "video" false [] none,
          Element.mk 3 "video" false [] none] := by
    rintro e ⟨root, hr, hp⟩
    induction hp with
    | refl =>
      simp only [sampleDocument, List.mem_singleton] at hr
      subst hr
      exact List.mem_cons_self _ _
    | tail _ hl ih =>
      rename_i p e2
      simp only [List.mem_cons, List.mem_singleton, List.not_mem_nil, or_false] at ih
      rcases ih with ih | ih | ih | ih <;> subst ih <;>
        rcases hl with hc | ⟨kids, hs, hc⟩ <;>
        simp [Element.children, Element.shadowRoot] at hc ⊢ <;>
        first
        | (rcases hc with hc | hc <;> subst hc <;> simp)
        | (simp [Element.shadowRoot] at hs; subst hs; simp at hc; subst hc; simp)
        | (simp [Element.shadowRoot] at hs)
  intro e he
  have := all e he
  simp only [List.mem_cons, List.mem_singleton, List.not_mem_nil, or_false] at this
  rcases this with h | h | h | h <;> subst h <;> rfl

theorem toFixed2_eight : toFixed2 8 = "8.00" := by
  unfold toFixed2
  have h1 : (⌊|(8 : ℚ)| * 100 + 1 / 2⌋).toNat = 800 := by
    have : |(8 : ℚ)| = 8 := abs_of_pos (by norm_num)
    rw [this]
    have : ⌊(8 : ℚ) * 100 + 1 / 2⌋ = 800 := by norm_num
    rw [this]; rfl
  simp only [h1]
  have h2 : ¬ ((8 : ℚ) < 0) := by norm_num
  simp only [h2, if_false]
  decide

theorem toFixed2_eight_and_quarter : toFixed2 (8 + 1 / 4) = "8.25" := by
  unfold toFixed2
  have h1 : (⌊|(8 + 1 / 4 : ℚ)| * 100 + 1 / 2⌋).toNat = 825 := by
    have : |(8 + 1 / 4 : ℚ)| = 8 + 1 / 4 := abs_of_pos (by norm_num)
    rw [this]
    have : ⌊(8 + 1 / 4 : ℚ) * 100 + 1 / 2⌋ = 825 := by norm_num
    rw [this]; rfl
  simp only [h1]
  have h2 : ¬ ((8 + 1 / 4 : ℚ) < 0) := by norm_num
  simp only [h2, if_false]
  decide

theorem increaseClick_at_ceiling :
    ((increaseClick (trackedAtRate 8) 0).videos 0).playbackRate = 8 ∧
      (∃ shown, (increaseClick (trackedAtRate 8) 0).overlays[0]? = some shown ∧
        shown.speedText = "8.00x") ∧
      (increaseClick (trackedAtRate 8) 0).toasts = ["Speed: 8.25x"] := by
  have hc : clamp (((trackedAtRate 8).videos 0).playbackRate + 1 / 4) = 8 := by
    show clamp (8 + 1 / 4) = 8
    norm_num [clamp]
  obtain ⟨h1, h2, h3⟩ := click_result (trackedAtRate 8) 0 (1 / 4)
    { overlay := 0, position := { x := 10, y := 10 } } _ rfl rfl rfl
  rw [hc] at h1 h2
  refine ⟨h1, ⟨_, h2, ?_⟩, ?_⟩
  · show toFixed2 8 ++ "x" = "8.00x"
    rw [toFixed2_eight]; rfl
  · show ("Speed: " ++ toFixed2 (((trackedAtRate 8).videos 0).playbackRate + 1 / 4) ++ "x")
        :: (applySpeed (trackedAtRate 8) 0
          (((trackedAtRate 8).videos 0).playbackRate + 1 / 4)).toasts = _
    rw [h3]
    show ("Speed: " ++ toFixed2 (8 + 1 / 4) ++ "x") :: _ = _
    rw [toFixed2_eight_and_quarter]
    rfl

theorem isValidVideo_unprotected (s : State) (v : VideoId) (h : isValidVideo s v = true) :
    ((s.videos v).webkitKeys || (s.videos v).mozKeys) = false := by
  unfold isValidVideo at h
  split at h
  · simp at h
  · split at h
    · simp at h
    · split at h
      · simp at h
      · rename_i hk; simpa using hk

theorem injectOverlay_pushes (s : State) (w : VideoId)
    (h0 : weakHas s.videoElements w = false)
    (hp : ((s.videos w).webkitKeys || (s.videos w).mozKeys) = false) :
    (injectOverlay s w).trackedVideos = s.trackedVideos ++ [w] := by
  rw [injectOverlay_unfold s w h0 hp]
  obtain ⟨_, _, c3, _⟩ := createOverlay_new
    { s with trackedVideos := s.trackedVideos ++ [w] } w h0
  obtain ⟨_, a2, _⟩ := attachOverlay_frame
    (createOverlay { s with trackedVideos := s.trackedVideos ++ [w] } w).1 w s.overlays.length
  rw [a2, c3]

theorem injectOverlay_trackedVideos_cases (s : State) (w : VideoId) :
    (injectOverlay s w).trackedVideos = s.trackedVideos ∨
      (injectOverlay s w).trackedVideos = s.trackedVideos ++ [w] := by
  by_cases h0 : weakHas s.videoElements w = true
  · rw [injectOverlay_tracked s w h0]; exact Or.inl rfl
  · have h0f : weakHas s.videoElements w = false := by simpa using h0
    by_cases hp : ((s.videos w).webkitKeys || (s.videos w).mozKeys) = true
    · have : injectOverlay s w = s := by
        unfold injectOverlay
        rw [if_neg (by simp [h0f]), if_pos hp]
      rw [this]; exact Or.inl rfl
    · exact Or.inr (injectOverlay_pushes s w h0f (by simpa using hp))

theorem scanForVideosStep_eq_self (s : State) (w : VideoId)
    (h : isValidVideo s w = false ∨ weakHas s.videoElements w = true) :
    scanForVideosStep s w = s := by
  unfold scanForVideosStep
  rcases h with h | h
  · simp [h]
  · by_cases hv : isValidVideo s w = true
    · simp [hv, h]
    · simp [hv]

theorem scanForVideosStep_eq_inject (s : State) (w : VideoId)
    (hv : isValidVideo s w = true) (h0 : weakHas s.videoElements w = false) :
    scanForVideosStep s w = injectOverlay s w := by
  unfold scanForVideosStep
  simp [hv, h0]

theorem scanForVideosStep_trackedVideos_cases (s : State) (w : VideoId) :
    (scanForVideosStep s w).trackedVideos = s.trackedVideos ∨
      (scanForVideosStep s w).trackedVideos = s.trackedVideos ++ [w] := by
  unfold scanForVideosStep
  split
  · exact Or.inl rfl
  · split
    · exact Or.inl rfl
    · exact injectOverlay_trackedVideos_cases s w

theorem scanForVideosStep_weakGet_other (s : State) (w v : VideoId) (h : v ≠ w) :
    weakGet (scanForVideosStep s w).videoElements v = weakGet s.videoElements v := by
  unfold scanForVideosStep
  split
  · rfl
  · split
    · rfl
    · exact injectOverlay_weakGet_other s w v h

/-- The scan is the injection, in list order, of the members that are valid, each skipped
when it has an entry at its turn. -/
theorem scan_eq_filter (l : List VideoId) :
    ∀ s : State,
      l.foldl scanForVideosStep s
        = (l.filter fun v => isValidVideo s v).foldl
            (fun acc v => if weakHas acc.videoElements v then acc else injectOverlay acc v) s := by
  induction l with
  | nil => intro s; rfl
  | cons w l ih =>
    intro s
    simp only [List.foldl_cons]
    rw [ih (scanForVideosStep s w)]
    have hfilter : (l.filter fun v => isValidVideo (scanForVideosStep s w) v)
        = l.filter fun v => isValidVideo s v := by
      apply List.filter_congr
      intro x _
      exact scanForVideosStep_valid s w x
    rw [hfilter]
    by_cases hv : isValidVideo s w = true
    · rw [List.filter_cons_of_pos (by simpa using hv)]
      simp only [List.foldl_cons]
      congr 1
      unfold scanForVideosStep
      simp [hv]
    · have hvf : isValidVideo s w = false := by simpa using hv
      rw [List.filter_cons_of_neg (by simp [hvf])]
      rw [scanForVideosStep_eq_self s w (Or.inl hvf)]

theorem scan_nothing (l : List VideoId) :
    ∀ s : State,
      (∀ v, v ∈ l → isValidVideo s v = false ∨ weakHas s.videoElements v = true) →
      l.foldl scanForVideosStep s = s := by
  induction l with
  | nil => intro s _; rfl
  | cons w l ih =>
    intro s h
    simp only [List.foldl_cons]
    rw [scanForVideosStep_eq_self s w (h w (List.mem_cons_self _ _))]
    exact ih s (fun v hv => h v (List.mem_cons_of_mem _ hv))

theorem scan_tracked_grows (l : List VideoId) :
    ∀ (s : State) (x : VideoId), x ∈ s.trackedVideos →
      x ∈ (l.foldl scanForVideosStep s).trackedVideos := by
  induction l with
  | nil => intro s x h; exact h
  | cons w l ih =>
    intro s x h
    simp only [List.foldl_cons]
    apply ih
    rcases scanForVideosStep_trackedVideos_cases s w with e | e <;> rw [e]
    · exact h
    · exact List.mem_append_left _ h

theorem weakHas_eq_of_weakGet (m n : List (VideoId × OverlayData)) (v : VideoId)
    (h : weakGet m v = weakGet n v) : weakHas m v = weakHas n v := by
  unfold weakHas
  unfold weakGet at h
  rw [h]

theorem scan_tracks_member (l : List VideoId) :
    ∀ (s : State) (v : VideoId), v ∈ l → isValidVideo s v = true →
      weakHas s.videoElements v = false →
      v ∈ (l.foldl scanForVideosStep s).trackedVideos := by
  induction l with
  | nil => intro s v h; simp at h
  | cons w l ih =>
    intro s v hm hv h0
    simp only [List.foldl_cons]
    by_cases hw : v = w
    · subst hw
      apply scan_tracked_grows
      rw [scanForVideosStep_eq_inject s v hv h0,
        injectOverlay_pushes s v h0 (isValidVideo_unprotected s v hv)]
      exact List.mem_append_right _ (List.mem_singleton.mpr rfl)
    · have hml : v ∈ l := by
        rcases List.mem_cons.mp hm with h | h
        · exact absurd h hw
        · exact h
      apply ih _ v hml
      · rw [scanForVideosStep_valid s w v]; exact hv
      · rw [weakHas_eq_of_weakGet _ _ v (scanForVideosStep_weakGet_other s w v hw)]
        exact h0

theorem scan_tracked_count (l : List VideoId) :
    ∀ (s : State) (v : VideoId),
      (v ∉ l ∨ isValidVideo s v = false ∨ weakHas s.videoElements v = true) →
      (l.foldl scanForVideosStep s).trackedVideos.count v = s.trackedVideos.count v := by
  induction l with
  | nil => intro s v _; rfl
  | cons w l ih =>
    intro s v h
    simp only [List.foldl_cons]
    by_cases hw : v = w
    · subst hw
      have h2 : isValidVideo s v = false ∨ weakHas s.videoElements v = true := by
        rcases h with h | h
        · exact absurd (List.mem_cons_self _ _) h
        · exact h
      rw [scanForVideosStep_eq_self s v h2]
      apply ih s v
      exact Or.inr h2
    · rw [ih (scanForVideosStep s w) v]
      · rcases scanForVideosStep_trackedVideos_cases s w with e | e <;> rw [e]
        rw [List.count_append, List.count_singleton]
        simp [Ne.symm hw]
      · rcases h with h | h | h
        · exact Or.inl (fun hm => h (List.mem_cons_of_mem _ hm))
        · right; left
          rw [scanForVideosStep_valid s w v]; exact h
        · right; right
          rw [weakHas_eq_of_weakGet _ _ v (scanForVideosStep_weakGet_other s w v hw)]
          exact h

theorem sampleState_valid (v : VideoId) : isValidVideo sampleState v = true := by
  unfold isValidVideo
  norm_num [sampleState, sampleVideo]

theorem detachedState_invalid (v : VideoId) : isValidVideo detachedState v = false := by
  unfold isValidVideo
  simp [detachedState]

end Content

/-! ## Theorems -/

open Content

/-- C1: when the host setter accepts the clamped value, `applySpeed(video, r)` leaves the
playback rate of the video at `clamp(r) = min(max(r, 0.25), 8.0)`, which lies in
`[0.25, 8.0]`, and `settings.lastUsedSpeed` at the same value. -/
theorem applySpeed_sets_clamped_rate (s : Content.State) (video : Content.VideoId) (r : ℚ)
    (h : (s.videos video).rateError (clamp r) = none) :
    ((Content.applySpeed s video r).videos video).playbackRate = clamp r ∧
      clamp r = min (max r (1 / 4)) 8 ∧
      1 / 4 ≤ ((Content.applySpeed s video r).videos video).playbackRate ∧
      ((Content.applySpeed s video r).videos video).playbackRate ≤ 8 ∧
      (Content.applySpeed s video r).settings.lastUsedSpeed = clamp r := by
  obtain ⟨hv, hs⟩ := Content.applySpeed_accepted s video r h
  have hr : ((Content.applySpeed s video r).videos video).playbackRate = clamp r := by
    rw [hv]; simp
  refine ⟨hr, rfl, ?_, ?_, ?_⟩
  · rw [hr]; exact (Content.clamp_range r).1
  · rw [hr]; exact (Content.clamp_range r).2
  · rw [hs]

/-- C2: in a settings state whose speeds lie in `[0.25, 8.0]`, `applySpeedToAllVideos`
sets a tracked video that is still attached (and whose host setter accepts the value) to
the override speed of the current domain when `autoApply` is true and the domain has an
override, and to `defaultSpeed` in every other case; a video that is no longer attached is
left unchanged. -/
theorem applySpeedToAllVideos_sets_target (s : Content.State) (video : Content.VideoId)
    (hr : Content.SpeedsInRange s.settings) :
    (video ∈ s.trackedVideos → (s.videos video).inDocument = true →
        (s.videos video).rateError (Content.targetSpeed s) = none →
        ((Content.applySpeedToAllVideos s).videos video).playbackRate
            = Content.targetSpeed s ∧
          (∀ o, Content.domainOverride s = some o → s.settings.autoApply = true →
            Content.targetSpeed s = o) ∧
          (Content.domainOverride s = none → Content.targetSpeed s = s.settings.defaultSpeed) ∧
          (s.settings.autoApply = false → Content.targetSpeed s = s.settings.defaultSpeed)) ∧
      ((s.videos video).inDocument = false →
        (Content.applySpeedToAllVideos s).videos video = s.videos video) := by
  constructor
  · intro hm hin hacc
    refine ⟨?_, ?_, ?_, ?_⟩
    · exact Content.foldl_step_sets video s.trackedVideos s (Content.override_ne_zero s hr)
        (Content.targetSpeed_range s hr) hin hacc hm
    · intro o ho ha
      simp [Content.targetSpeed, ho, ha]
    · intro ho
      simp [Content.targetSpeed, ho]
    · intro ha
      unfold Content.targetSpeed
      split <;> simp [ha]
  · intro hout
    unfold Content.applySpeedToAllVideos
    apply Content.foldl_step_other
    intro w _
    by_cases hw : w = video
    · right; rw [hw]; exact hout
    · exact Or.inl hw

/-- C3: overlay creation is idempotent. On a video that already has an entry in the
video-to-overlay map, `injectOverlay` and `createOverlay` change nothing and `createOverlay`
returns no widget. Hence, for a video that was in neither structure and that the first call
of `injectOverlay` tracked, after two calls the video has exactly one entry in the map,
occurs exactly once in `trackedVideos`, and exactly one widget was built; the same holds
for the entry and the widget after two calls of `createOverlay`. -/
theorem overlay_creation_idempotent (s : Content.State) (video : Content.VideoId) :
    (Content.weakHas s.videoElements video = true →
        Content.injectOverlay s video = s ∧ Content.createOverlay s video = (s, none)) ∧
      (Content.weakHas s.videoElements video = false → video ∉ s.trackedVideos →
        Content.weakHas (Content.injectOverlay s video).videoElements video = true →
        Content.injectOverlay (Content.injectOverlay s video) video
            = Content.injectOverlay s video ∧
          Content.entryCount
              (Content.injectOverlay (Content.injectOverlay s video) video).videoElements
              video = 1 ∧
          (Content.injectOverlay (Content.injectOverlay s video) video).trackedVideos.count
              video = 1 ∧
          (Content.injectOverlay (Content.injectOverlay s video) video).overlays.length
            = s.overlays.length + 1) ∧
      (Content.weakHas s.videoElements video = false →
        Content.createOverlay (Content.createOverlay s video).1 video
            = ((Content.createOverlay s video).1, none) ∧
          Content.entryCount (Content.createOverlay s video).1.videoElements video = 1 ∧
          (Content.createOverlay s video).1.overlays.length = s.overlays.length + 1) := by
  refine ⟨?_, ?_, ?_⟩
  · intro h
    exact ⟨Content.injectOverlay_tracked s video h, Content.createOverlay_tracked s video h⟩
  · intro h0 hnot h1
    obtain ⟨e1, e2, e3⟩ := Content.injectOverlay_new s video h0 h1
    rw [Content.injectOverlay_tracked _ video h1]
    refine ⟨rfl, ?_, ?_, e3⟩
    · rw [e1]; exact Content.entryCount_weakSet _ _ _
    · rw [e2, List.count_append, List.count_eq_zero_of_not_mem hnot]
      simp
  · intro h0
    obtain ⟨_, c2, _, c4⟩ := Content.createOverlay_new s video h0
    refine ⟨?_, ?_, c4⟩
    · apply Content.createOverlay_tracked
      rw [c2]; exact Content.weakHas_weakSet _ _ _
    · rw [c2]; exact Content.entryCount_weakSet _ _ _

/-- C4: round trip of the settings store. When no storage call rejects, `getSettings()`
after `saveSettings(p)` returns the value of `p` for every field present in `p` and, for
every field not present in `p`, the value `getSettings()` returned before the save. -/
theorem settings_round_trip (st : Background.Storage) (p : Background.Obj)
    (hs : st.syncFails = false) (hl : st.localFails = false) (field : String) :
    (∀ value, p.get field = some value →
        (Background.getSettings (Background.saveSettings st p)).get field = some value) ∧
      (p.get field = none →
        (Background.getSettings (Background.saveSettings st p)).get field
          = (Background.getSettings st).get field) := by
  obtain ⟨e1, e2, e3, e4⟩ := Background.saveSettings_items st p hs hl field
  rw [Background.getSettings_get _ e3 e4, Background.getSettings_get _ hs hl, e1, e2,
    Background.splitSettings_sync, Background.splitSettings_local]
  by_cases h : field = "overlayVisible" ∨ field = "lastUsedSpeed"
  · simp only [h, if_true]
    constructor
    · intro value hv; simp [hv]
    · intro hv; simp [hv]
  · simp only [h, if_false]
    constructor
    · intro value hv; simp [hv]
    · intro hv; simp [hv]

/-- The theorem `applySpeed_sets_clamped_rate` at a sample input. -/
theorem applySpeed_sets_clamped_rate_witness :
    (sampleState.videos 0).rateError (clamp 10) = none ∧
      ((applySpeed sampleState 0 10).videos 0).playbackRate = 8 ∧
      (applySpeed sampleState 0 10).settings.lastUsedSpeed = 8 := by
  have h := applySpeed_sets_clamped_rate sampleState 0 10 rfl
  have hc : clamp 10 = 8 := by norm_num [clamp]
  rw [hc] at h
  exact ⟨rfl, h.1, h.2.2.2.2⟩

/-- The theorem `applySpeedToAllVideos_sets_target` at a sample input. -/
theorem applySpeedToAllVideos_sets_target_witness :
    SpeedsInRange overrideState.settings ∧
      ((applySpeedToAllVideos overrideState).videos 0).playbackRate = 2 := by
  have h := (applySpeedToAllVideos_sets_target overrideState 0 overrideState_inRange).1
    (by simp [overrideState]) rfl rfl
  refine ⟨overrideState_inRange, ?_⟩
  rw [h.1]
  exact h.2.1 2 rfl rfl

/-- The theorem `overlay_creation_idempotent` at a sample input. -/
theorem overlay_creation_idempotent_witness :
    weakHas sampleState.videoElements 0 = false ∧ 0 ∉ sampleState.trackedVideos ∧
      weakHas (injectOverlay sampleState 0).videoElements 0 = true ∧
      entryCount (injectOverlay (injectOverlay sampleState 0) 0).videoElements 0 = 1 ∧
      (injectOverlay (injectOverlay sampleState 0) 0).trackedVideos.count 0 = 1 ∧
      (injectOverlay (injectOverlay sampleState 0) 0).overlays.length = 1 := by
  have h1 : weakHas (injectOverlay sampleState 0).videoElements 0 = true := by decide
  have h := (overlay_creation_idempotent sampleState 0).2.1 rfl (by simp [sampleState]) h1
  exact ⟨rfl, by simp [sampleState], h1, h.2.1, h.2.2.1, h.2.2.2⟩

/-- The theorem `settings_round_trip` at a sample input. -/
theorem settings_round_trip_witness :
    Background.sampleStorage.syncFails = false ∧ Background.sampleStorage.localFails = false ∧
      (Background.getSettings (Background.saveSettings Background.sampleStorage [("defaultSpeed", .num (5 / 2))])).get
          "defaultSpeed" = some (.num (5 / 2)) ∧
      (Background.getSettings (Background.saveSettings Background.sampleStorage [("defaultSpeed", .num (5 / 2))])).get "theme"
        = (Background.getSettings Background.sampleStorage).get "theme" :=
  ⟨rfl, rfl,
    (settings_round_trip Background.sampleStorage [("defaultSpeed", .num (5 / 2))] rfl rfl
      "defaultSpeed").1 _ rfl,
    (settings_round_trip Background.sampleStorage [("defaultSpeed", .num (5 / 2))] rfl rfl "theme").2 rfl⟩

/-- C5 (the code at the failing input): with the `up` shortcut bound to `ArrowUp`, the chord
the popup stores for the bare ArrowUp key, a key-down with no modifiers and code `ArrowUp`
on the page body is not handled, whatever the playback rate `r`: the live chord is
`$ArrowUp`, the state (the playback rate included) is unchanged and the event is not
suppressed. -/
theorem handleKeyDown_arrowUp_unhandled (r : ℚ) :
    Popup.capturedCombo arrowUpEvent = "ArrowUp" ∧
      (upBoundState r).settings.keyboardShortcuts.up = "ArrowUp" ∧
      keyCombo arrowUpEvent = "$ArrowUp" ∧
      handleKeyDown (upBoundState r) arrowUpEvent
        = (upBoundState r, { defaultPrevented := false, propagationStopped := false }) ∧
      (((handleKeyDown (upBoundState r) arrowUpEvent).1.videos 0).playbackRate = r) := by
  have h : handleKeyDown (upBoundState r) arrowUpEvent
      = (upBoundState r, { defaultPrevented := false, propagationStopped := false }) :=
    handleKeyDown_unmatched _ _
      (show keyCombo arrowUpEvent ≠ "ArrowUp" by decide)
      (show keyCombo arrowUpEvent ≠ "" by decide)
      (show keyCombo arrowUpEvent ≠ "CtrlShiftDigit0" by decide)
      (show keyCombo arrowUpEvent ≠ "CtrlShiftArrowUp" by decide)
      (show keyCombo arrowUpEvent ≠ "CtrlShiftArrowDown" by decide)
      (show keyCombo arrowUpEvent ≠ "" by decide)
  refine ⟨by decide, rfl, by decide, h, ?_⟩
  rw [h]
  rfl

/-- C6: when the bindings `up`, `down`, `reset`, `fineUp`, `fineDown` and `toggleOverlay`
are all the empty string, `handleKeyDown` handles no key-down event: the whole state (the
playback rates, the settings, the overlays) is unchanged and the event is not suppressed. -/
theorem unbound_shortcuts_never_match (s : State) (e : KeyEvent)
    (hup : s.settings.keyboardShortcuts.up = "")
    (hdown : s.settings.keyboardShortcuts.down = "")
    (hreset : s.settings.keyboardShortcuts.reset = "")
    (hfineUp : s.settings.keyboardShortcuts.fineUp = "")
    (hfineDown : s.settings.keyboardShortcuts.fineDown = "")
    (htoggle : s.settings.keyboardShortcuts.toggleOverlay = "") :
    handleKeyDown s e = (s, { defaultPrevented := false, propagationStopped := false }) := by
  apply handleKeyDown_unmatched
  · rw [hup]; exact keyCombo_ne_empty e
  · rw [hdown]; exact keyCombo_ne_empty e
  · rw [hreset]; exact keyCombo_ne_empty e
  · rw [hfineUp]; exact keyCombo_ne_empty e
  · rw [hfineDown]; exact keyCombo_ne_empty e
  · rw [htoggle]; exact keyCombo_ne_empty e

/-- The theorem `unbound_shortcuts_never_match` at a sample input. -/
theorem unbound_shortcuts_never_match_witness :
    unboundState.settings.keyboardShortcuts.up = "" ∧
      handleKeyDown unboundState arrowUpEvent
        = (unboundState, { defaultPrevented := false, propagationStopped := false }) :=
  ⟨rfl, unbound_shortcuts_never_match unboundState arrowUpEvent rfl rfl rfl rfl rfl rfl⟩

/-- C7: a key-down whose target is an `INPUT` element, a `TEXTAREA` element or a
content-editable element leaves the whole state unchanged (playback rates, settings,
overlays, toasts) and is not suppressed, whatever the shortcut bindings are. -/
theorem typing_never_intercepted (s : State) (e : KeyEvent)
    (h : e.targetTagName = "INPUT" ∨ e.targetTagName = "TEXTAREA" ∨
      e.targetIsContentEditable = true) :
    handleKeyDown s e = (s, { defaultPrevented := false, propagationStopped := false }) := by
  unfold handleKeyDown
  rw [if_pos]
  rcases h with h | h | h <;> simp [h]

/-- The theorem `typing_never_intercepted` at a sample input. -/
theorem typing_never_intercepted_witness :
    typingEvent.targetTagName = "INPUT" ∧
      handleKeyDown sampleState typingEvent
        = (sampleState, { defaultPrevented := false, propagationStopped := false }) :=
  ⟨rfl, typing_never_intercepted sampleState typingEvent (Or.inl rfl)⟩

/-- C8: while a drag is active, `drag` assigns to the overlay it found
`left = max(0, min(x, W - w))` and `top = max(0, min(y, H - h))`, with `x`, `y` the pointer
position minus the drag offset; both are nonnegative, and when `w ≤ W` and `h ≤ H` the
widget lies inside the viewport (`left + w ≤ W` and `top + h ≤ H`). -/
theorem drag_clamps_position (s : State) (e : MouseEvent) (overlay : OverlayId) (o : Overlay)
    (hd : s.isDragging = true)
    (ht : (queryDragging s).orElse (fun _ => e.hit) = some overlay)
    (ho : s.overlays[overlay]? = some o) :
    ∃ moved, (drag s e).1.overlays[overlay]? = some moved ∧
      moved.left
        = max 0 (min (e.clientX - s.dragOffset.x)
            (s.innerWidth - (s.layout overlay).offsetWidth)) ∧
      moved.top
        = max 0 (min (e.clientY - s.dragOffset.y)
            (s.innerHeight - (s.layout overlay).offsetHeight)) ∧
      0 ≤ moved.left ∧ 0 ≤ moved.top ∧
      ((s.layout overlay).offsetWidth ≤ s.innerWidth →
        moved.left + (s.layout overlay).offsetWidth ≤ s.innerWidth) ∧
      ((s.layout overlay).offsetHeight ≤ s.innerHeight →
        moved.top + (s.layout overlay).offsetHeight ≤ s.innerHeight) := by
  refine ⟨_, drag_active_overlay s e overlay o hd ht ho, rfl, rfl, le_max_left _ _,
    le_max_left _ _, ?_, ?_⟩
  · intro hw
    have h1 : max 0 (min (e.clientX - s.dragOffset.x)
        (s.innerWidth - (s.layout overlay).offsetWidth))
        ≤ s.innerWidth - (s.layout overlay).offsetWidth :=
      max_le (sub_nonneg.mpr hw) (min_le_right _ _)
    show max 0 (min (e.clientX - s.dragOffset.x)
        (s.innerWidth - (s.layout overlay).offsetWidth)) + (s.layout overlay).offsetWidth
        ≤ s.innerWidth
    linarith
  · intro hh
    have h1 : max 0 (min (e.clientY - s.dragOffset.y)
        (s.innerHeight - (s.layout overlay).offsetHeight))
        ≤ s.innerHeight - (s.layout overlay).offsetHeight :=
      max_le (sub_nonneg.mpr hh) (min_le_right _ _)
    show max 0 (min (e.clientY - s.dragOffset.y)
        (s.innerHeight - (s.layout overlay).offsetHeight)) + (s.layout overlay).offsetHeight
        ≤ s.innerHeight
    linarith

/-- The theorem `drag_clamps_position` at a sample input. -/
theorem drag_clamps_position_witness :
    dragState.isDragging = true ∧
      (queryDragging dragState).orElse (fun _ => dragLeftEvent.hit) = some 0 ∧
      dragLeftEvent.clientX - dragState.dragOffset.x = -50 ∧
      dragState.innerWidth = 1200 ∧ (dragState.layout 0).offsetWidth = 200 ∧
      ∃ moved, (drag dragState dragLeftEvent).1.overlays[0]? = some moved ∧
        moved.left = 0 ∧ moved.top = 100 := by
  obtain ⟨moved, h1, h2, h3, _⟩ :=
    drag_clamps_position dragState dragLeftEvent 0 _ rfl rfl rfl
  refine ⟨rfl, rfl, by norm_num [dragState, dragLeftEvent, sampleState], rfl, rfl, moved, h1, ?_, ?_⟩
  · rw [h2]; norm_num [dragState, dragLeftEvent, sampleState]
  · rw [h3]; norm_num [dragState, dragLeftEvent, sampleState]

/-- C9 (the code at the failing input): a drag move of the overlay of tracked video 0 to
`(300, 200)` moves the overlay and then leaves `saveOverlayPosition` by a `TypeError`
(`videoElements.entries` does not exist on a `WeakMap`): the settings hold no entry for the
current domain, the tracked entry keeps its position `(10, 10)`, and nothing is saved. -/
theorem drag_persists_nothing :
    dragState.isDragging = true ∧
      (drag dragState dragEvent).2
        = some "TypeError: videoElements.entries is not a function" ∧
      (∃ moved, (drag dragState dragEvent).1.overlays[0]? = some moved ∧
        moved.left = 300 ∧ moved.top = 200) ∧
      (drag dragState dragEvent).1.settings.domainSettings.lookup
          (drag dragState dragEvent).1.currentDomain = none ∧
      weakGet (drag dragState dragEvent).1.videoElements 0
        = some { overlay := 0, position := { x := 10, y := 10 } } ∧
      (drag dragState dragEvent).1.syncSets = [] := by
  have ho := drag_active_overlay dragState dragEvent 0 _ rfl rfl rfl
  have h := drag_active dragState dragEvent 0 rfl rfl
  refine ⟨rfl, ?_, ⟨_, ho, ?_, ?_⟩, ?_, ?_, ?_⟩
  · rw [h]
  · norm_num [dragState, dragEvent, sampleState]
  · norm_num [dragState, dragEvent, sampleState]
  · rw [h]; rfl
  · rw [h]; rfl
  · rw [h]; rfl

/-- C10 (amended): for an untracked, unprotected video whose overlay is appended, in a
settings state whose speeds lie in `[0.25, 8.0]` and with a host setter that accepts such
values, `injectOverlay` sets the playback rate to the override speed of the current domain
when that override exists and `autoApply` is true; otherwise to `lastUsedSpeed` when it
differs from 1.0; otherwise it leaves the video unchanged. In each case the overlay displays
the resulting rate with two decimals followed by `x`. -/
theorem injectOverlay_initial_speed (s : State) (video : VideoId)
    (h0 : weakHas s.videoElements video = false)
    (hp : ((s.videos video).webkitKeys || (s.videos video).mozKeys) = false)
    (happend : appendThrows s video (findContainer (s.videos video).ancestors) = false)
    (hr : SpeedsInRange s.settings)
    (hacc : ∀ q, 1 / 4 ≤ q → q ≤ 8 → (s.videos video).rateError q = none) :
    (∀ q, domainOverride s = some q → s.settings.autoApply = true →
        ((injectOverlay s video).videos video).playbackRate = q) ∧
      ((domainOverride s = none ∨ s.settings.autoApply = false) →
        s.settings.lastUsedSpeed ≠ 1 →
        ((injectOverlay s video).videos video).playbackRate = s.settings.lastUsedSpeed) ∧
      ((domainOverride s = none ∨ s.settings.autoApply = false) →
        s.settings.lastUsedSpeed = 1 →
        (injectOverlay s video).videos video = s.videos video) ∧
      ∃ shown, (injectOverlay s video).overlays[s.overlays.length]? = some shown ∧
        shown.speedText
          = toFixed2 ((injectOverlay s video).videos video).playbackRate ++ "x" := by
  obtain ⟨s4, e1, e2, e3, e4, ⟨position, e5⟩, o, e6, e7⟩ :=
    injectOverlay_attached s video h0 hp happend
  have hd : domainOverride s4 = domainOverride s := by
    unfold domainOverride; rw [e3, e4]
  have hres := applyInitialSpeed_result s4 video s.overlays.length o position
    (by rw [e3]; exact hr) (by rw [e2]; exact hacc) e5 e6 (by rw [e2]; exact e7)
  rw [← e1, hd, e3, e2] at hres
  exact ⟨hres.2.1, hres.2.2.1, hres.2.2.2, hres.1⟩

/-- The theorem `injectOverlay_initial_speed` at a sample input. -/
theorem injectOverlay_initial_speed_witness :
    weakHas lastUsedState.videoElements 0 = false ∧
      domainOverride lastUsedState = none ∧ lastUsedState.settings.autoApply = false ∧
      lastUsedState.settings.lastUsedSpeed = 7 / 4 ∧
      ((injectOverlay lastUsedState 0).videos 0).playbackRate = 7 / 4 ∧
      ∃ shown, (injectOverlay lastUsedState 0).overlays[0]? = some shown ∧
        shown.speedText = "1.75x" := by
  have h := injectOverlay_initial_speed lastUsedState 0 rfl rfl rfl lastUsedState_inRange
    (fun _ _ _ => rfl)
  have hrate : ((injectOverlay lastUsedState 0).videos 0).playbackRate = 7 / 4 :=
    h.2.1 (Or.inl rfl) (by norm_num [lastUsedState])
  obtain ⟨shown, h1, h2⟩ := h.2.2.2
  refine ⟨rfl, rfl, rfl, rfl, hrate, shown, h1, ?_⟩
  rw [h2, hrate, toFixed2_seven_quarters]
  rfl

/-- C10 (counterexample): an untracked, unprotected video whose overlay is appended, with
`autoApply` on and an override of 20 stored for the domain: `injectOverlay` sets the
playback rate to 8, not to the override. -/
theorem injectOverlay_clamps_override :
    weakHas wildOverrideState.videoElements 0 = false ∧
      ((wildOverrideState.videos 0).webkitKeys || (wildOverrideState.videos 0).mozKeys) = false ∧
      appendThrows wildOverrideState 0 (findContainer (wildOverrideState.videos 0).ancestors)
        = false ∧
      domainOverride wildOverrideState = some 20 ∧
      wildOverrideState.settings.autoApply = true ∧
      ((injectOverlay wildOverrideState 0).videos 0).playbackRate = 8 ∧
      ((injectOverlay wildOverrideState 0).videos 0).playbackRate ≠ 20 := by
  obtain ⟨s4, e1, e2, e3, e4, _, _⟩ := injectOverlay_attached wildOverrideState 0 rfl rfl rfl
  have hd : domainOverride s4 = some 20 := by
    unfold domainOverride; rw [e3, e4]; rfl
  have ha : s4.settings.autoApply = true := by rw [e3]; rfl
  have hacc : (s4.videos 0).rateError (clamp 20) = none := by rw [e2]; rfl
  have hc : clamp 20 = 8 := by norm_num [clamp]
  have hrate : ((injectOverlay wildOverrideState 0).videos 0).playbackRate = 8 := by
    rw [e1, applyInitialSpeed_override s4 0 20 hd (by norm_num) ha,
      (applySpeed_accepted s4 0 20 hacc).1, hc]
    simp
  refine ⟨rfl, rfl, rfl, rfl, rfl, hrate, ?_⟩
  rw [hrate]
  norm_num

/-- C11 (amended): when the host rejects the clamped value, `applySpeed` returns to its
caller in every case. If the message of the failure does not contain
`Extension context invalidated` and the host accepts the reset, the playback rate and
`settings.lastUsedSpeed` are 1.0 afterwards. If the message contains
`Extension context invalidated`, or if the host rejects the reset to 1.0 too, the state is
left as it was. -/
theorem applySpeed_fallback (s : State) (video : VideoId) (r : ℚ) (message : String)
    (h : (s.videos video).rateError (clamp r) = some message) :
    ((message = "" ∨ includes message "Extension context invalidated" = false) →
        (s.videos video).rateError 1 = none →
        ((applySpeed s video r).videos video).playbackRate = 1 ∧
          (applySpeed s video r).settings.lastUsedSpeed = 1) ∧
      ((message ≠ "" ∧ includes message "Extension context invalidated" = true) →
        applySpeed s video r = s) ∧
      ((s.videos video).rateError 1 ≠ none → applySpeed s video r = s) := by
  rw [applySpeed_rejected s video r message h]
  refine ⟨?_, ?_, ?_⟩
  · intro hm h1
    have hc : ¬ (message ≠ "" ∧ includes message "Extension context invalidated" = true) := by
      rintro ⟨c1, c2⟩
      rcases hm with hm | hm
      · exact c1 hm
      · rw [hm] at c2; exact absurd c2 (by simp)
    rw [if_neg hc, h1]
    exact ⟨setPlaybackRate_same s video 1, rfl⟩
  · intro hm
    rw [if_pos hm]
  · intro h1
    split
    · rfl
    · cases hr : (s.videos video).rateError 1 with
      | none => exact absurd hr h1
      | some _ => rfl

/-- The theorem `applySpeed_fallback` at a sample input. -/
theorem applySpeed_fallback_witness :
    (resettableState.videos 0).rateError (clamp 3) = some "NotSupportedError" ∧
      ((applySpeed resettableState 0 3).videos 0).playbackRate = 1 ∧
      (applySpeed resettableState 0 3).settings.lastUsedSpeed = 1 := by
  have hc : clamp 3 = 3 := by norm_num [clamp]
  have h : (resettableState.videos 0).rateError (clamp 3) = some "NotSupportedError" := by
    rw [hc]; norm_num [resettableState]
  have h1 : (resettableState.videos 0).rateError 1 = none := by norm_num [resettableState]
  exact ⟨h, (applySpeed_fallback resettableState 0 3 _ h).1 (Or.inr (by decide)) h1⟩

/-- C11 (counterexample): a video playing at rate 2 whose setter fails with the message
`Extension context invalidated.`: after `applySpeed(video, 3)` the playback rate and
`settings.lastUsedSpeed` are still 2, not 1.0. -/
theorem applySpeed_keeps_rate_on_invalidated_context :
    ((rejectingState "Extension context invalidated.").videos 0).rateError (clamp 3)
        = some "Extension context invalidated." ∧
      ((applySpeed (rejectingState "Extension context invalidated.") 0 3).videos 0).playbackRate
        = 2 ∧
      (applySpeed (rejectingState "Extension context invalidated.") 0 3).settings.lastUsedSpeed
        = 2 ∧
      ¬ (((applySpeed (rejectingState "Extension context invalidated.") 0 3).videos
              0).playbackRate = 1 ∧
          (applySpeed (rejectingState "Extension context invalidated.") 0
              3).settings.lastUsedSpeed = 1) := by
  have h : applySpeed (rejectingState "Extension context invalidated.") 0 3
      = rejectingState "Extension context invalidated." := by
    rw [applySpeed_rejected _ 0 3 "Extension context invalidated." rfl]
    rw [if_pos ⟨by decide, by decide⟩]
  rw [h]
  refine ⟨rfl, rfl, rfl, ?_⟩
  rintro ⟨h1, _⟩
  norm_num [rejectingState] at h1

/-- C12 (the code at the failing input): on a page where `document.body.appendChild` throws,
`injectOverlay` of the untracked video 0 leaves the overlay without parent and the video
without map entry, but the video stays in `trackedVideos`; a later injection of the same
video, once appending works, leaves it there twice. -/
theorem injectOverlay_failed_append_keeps_tracked :
    weakHas appendFailState.videoElements 0 = false ∧ 0 ∉ appendFailState.trackedVideos ∧
      appendThrows appendFailState 0 (findContainer (appendFailState.videos 0).ancestors)
        = true ∧
      (injectOverlay appendFailState 0).overlays.map (fun o => o.parentNode) = [none] ∧
      weakHas (injectOverlay appendFailState 0).videoElements 0 = false ∧
      (injectOverlay appendFailState 0).trackedVideos = [0] ∧
      (injectOverlay appendFailState 0).trackedVideos ≠ appendFailState.trackedVideos ∧
      (injectOverlay { injectOverlay appendFailState 0 with bodyAppendThrows := false }
          0).trackedVideos = [0, 0] ∧
      (injectOverlay { injectOverlay appendFailState 0 with bodyAppendThrows := false }
          0).trackedVideos.count 0 = 2 := by
  refine ⟨rfl, by decide, rfl, by decide, by decide, by decide, by decide, by decide, by decide⟩

/-- C16 (the code at the failing input): for a tracked video playing at 0.25, a click on
the decrease button leaves the playback rate at `max(0.25 - 0.25, 0.25) = 0.25` and the
speed display at `0.25x`, while the toast reads `Speed: 0.00x`. -/
theorem decreaseClick_toast_unclamped :
    ((trackedAtRate (1 / 4)).videos 0).playbackRate = 1 / 4 ∧
      weakHas (trackedAtRate (1 / 4)).videoElements 0 = true ∧
      ((decreaseClick (trackedAtRate (1 / 4)) 0).videos 0).playbackRate = 1 / 4 ∧
      max ((1 : ℚ) / 4 - 1 / 4) (1 / 4) = 1 / 4 ∧
      (∃ shown, (decreaseClick (trackedAtRate (1 / 4)) 0).overlays[0]? = some shown ∧
        shown.speedText = "0.25x") ∧
      (decreaseClick (trackedAtRate (1 / 4)) 0).toasts = ["Speed: 0.00x"] := by
  have hstep : ((trackedAtRate (1 / 4)).videos 0).playbackRate - 1 / 4
      = ((trackedAtRate (1 / 4)).videos 0).playbackRate + (-(1 / 4)) := by ring
  have hzero : ((trackedAtRate (1 / 4)).videos 0).playbackRate - 1 / 4 = 0 := by
    show (1 / 4 : ℚ) - 1 / 4 = 0
    norm_num
  have hc : clamp (((trackedAtRate (1 / 4)).videos 0).playbackRate + (-(1 / 4))) = 1 / 4 := by
    rw [← hstep, hzero]; norm_num [clamp]
  obtain ⟨h1, h2, h3⟩ := click_result (trackedAtRate (1 / 4)) 0 (-(1 / 4))
    { overlay := 0, position := { x := 10, y := 10 } } _ rfl rfl rfl
  rw [hc] at h1 h2
  rw [← hstep] at h1 h2 h3
  refine ⟨rfl, rfl, h1, by norm_num, ⟨_, h2, ?_⟩, ?_⟩
  · show toFixed2 (1 / 4) ++ "x" = "0.25x"
    rw [toFixed2_quarter]; rfl
  · show ("Speed: " ++ toFixed2 (((trackedAtRate (1 / 4)).videos 0).playbackRate - 1 / 4) ++ "x")
        :: (applySpeed (trackedAtRate (1 / 4)) 0
          (((trackedAtRate (1 / 4)).videos 0).playbackRate - 1 / 4)).toasts = _
    rw [h3, hzero, toFixed2_zero]
    rfl

/-- C15 (counterexample): from the initial settings, whose speeds lie in `[0.25, 8.0]`, the
message `updateSettings` with the payload `{ defaultSpeed: 100 }` leaves
`settings.defaultSpeed` at 100. -/
theorem onUpdateSettings_stores_unclamped_speed :
    SpeedsInRange sampleState.settings ∧
      (onUpdateSettings sampleState wildUpdate).settings.defaultSpeed = 100 ∧
      ¬ SpeedsInRange (onUpdateSettings sampleState wildUpdate).settings := by
  have h : (onUpdateSettings sampleState wildUpdate).settings.defaultSpeed = 100 :=
    onUpdateSettings_settings sampleState wildUpdate
  refine ⟨sampleState_inRange, h, ?_⟩
  rintro ⟨⟨_, h2⟩, _⟩
  rw [h] at h2
  norm_num at h2

/-- C15 (amended): from a settings state whose speeds lie in `[0.25, 8.0]`, `applySpeed`
with any requested speed, `applySpeedToAllVideos`, `handleKeyDown` for any key event, a
click on an overlay button (decrease, increase, reset) and an `updateSettings` message
whose payload speeds lie in `[0.25, 8.0]` all yield a settings state whose speeds lie in
`[0.25, 8.0]`. -/
theorem speeds_stay_in_range (s : State) (h : SpeedsInRange s.settings) :
    (∀ video r, SpeedsInRange (applySpeed s video r).settings) ∧
      SpeedsInRange (applySpeedToAllVideos s).settings ∧
      (∀ e, SpeedsInRange (handleKeyDown s e).1.settings) ∧
      (∀ video, SpeedsInRange (decreaseClick s video).settings ∧
        SpeedsInRange (increaseClick s video).settings ∧
        SpeedsInRange (speedDisplayDblClick s video).settings) ∧
      ∀ update, UpdateInRange update → SpeedsInRange (onUpdateSettings s update).settings :=
  ⟨fun video r => applySpeed_inRange s video r h, applySpeedToAllVideos_inRange s h,
    fun e => handleKeyDown_inRange s e h,
    fun video => ⟨applySpeed_inRange s video _ h, applySpeed_inRange s video _ h,
      applySpeed_inRange s video _ h⟩,
    fun update hu => onUpdateSettings_inRange s update h hu⟩

/-- The theorem `speeds_stay_in_range` at a sample input. -/
theorem speeds_stay_in_range_witness :
    SpeedsInRange sampleState.settings ∧ UpdateInRange popupUpdate ∧
      SpeedsInRange (applySpeed sampleState 0 100).settings ∧
      SpeedsInRange (onUpdateSettings sampleState popupUpdate).settings :=
  ⟨sampleState_inRange, popupUpdate_inRange,
    (speeds_stay_in_range sampleState sampleState_inRange).1 0 100,
    (speeds_stay_in_range sampleState sampleState_inRange).2.2.2.2 popupUpdate
      popupUpdate_inRange⟩

/-- C14 (counterexample): with a synchronized tier that rejects every call, the message
`{ action: "saveSettings", settings: { defaultSpeed: 2.5 } }` is answered with
`{ success: true }`, not with `{ success: false, error }`, although nothing was stored:
both tiers are unchanged and the stored default speed is still 1. -/
theorem onMessage_reports_success_on_failed_store :
    Background.failingStorage.syncFails = true ∧
      (Background.onMessage Background.failingStorage (some Background.saveMessage)).2
        = Background.Response.success ∧
      (∀ error,
        (Background.onMessage Background.failingStorage (some Background.saveMessage)).2
          ≠ Background.Response.failure error) ∧
      (Background.onMessage Background.failingStorage
          (some Background.saveMessage)).1.syncItems = Background.failingStorage.syncItems ∧
      (Background.onMessage Background.failingStorage
          (some Background.saveMessage)).1.localItems = Background.failingStorage.localItems ∧
      (Background.onMessage Background.failingStorage
          (some Background.saveMessage)).1.syncItems.get "defaultSpeed"
        = some (Background.Json.num 1) := by
  have h : (Background.onMessage Background.failingStorage (some Background.saveMessage)).2
      = Background.Response.success := rfl
  refine ⟨rfl, h, ?_, rfl, rfl, rfl⟩
  intro error he
  rw [h] at he
  cases he

/-- C14 (amended): the background listener answers every message. A message that is
null or undefined, or whose action is absent or empty, gets `{ error }`; `getSettings` gets
`{ settings }`; `saveSettings` without a payload gets `{ success: false, error }` and leaves
the storage untouched; `saveSettings` with a payload gets `{ success: true }` after
`saveSettings` ran, whether or not a storage call rejected; any other action gets an
`{ error }` naming the unknown action. -/
theorem onMessage_responses (st : Background.Storage) :
    Background.onMessage st none = (st, .error "Invalid message format") ∧
      (∀ m : Background.Message, m.action = none ∨ m.action = some "" →
        Background.onMessage st (some m) = (st, .error "Invalid message format")) ∧
      (∀ m : Background.Message, m.action = some "getSettings" →
        Background.onMessage st (some m) = (st, .settings (Background.getSettings st))) ∧
      (∀ m : Background.Message, m.action = some "saveSettings" →
        (m.settings = none ∨ ∃ payload, m.settings = some payload ∧ payload.truthy = false) →
        Background.onMessage st (some m) = (st, .failure "No settings provided")) ∧
      (∀ (m : Background.Message) (payload : Background.Json),
        m.action = some "saveSettings" → m.settings = some payload → payload.truthy = true →
        Background.onMessage st (some m) = (Background.savePayload st payload, .success)) ∧
      (∀ (m : Background.Message) (action : String), m.action = some action → action ≠ "" →
        action ≠ "getSettings" → action ≠ "saveSettings" →
        Background.onMessage st (some m) = (st, .error ("Unknown action: " ++ action))) := by
  refine ⟨rfl, ?_, ?_, ?_, ?_, ?_⟩
  · intro m h
    rcases h with h | h <;> simp [Background.onMessage, h]
  · intro m h
    simp [Background.onMessage, h]
  · intro m h hs
    rcases hs with hs | ⟨payload, hs, ht⟩
    · simp [Background.onMessage, h, hs]
    · simp [Background.onMessage, h, hs, ht]
  · intro m payload h hs ht
    simp [Background.onMessage, h, hs, ht]
  · intro m action h h1 h2 h3
    simp [Background.onMessage, h, h1, h2, h3]

/-- C13: in a document tree in which no access throws, an identifier is in the list
`findAllVideos` returns if and only if it names a `video` element reachable from the
document root through child and shadow-root links. `scanForVideos` then is the injection,
in list order, of the members that are valid and have no entry at their turn: each such
member is passed to `injectOverlay` and ends in `trackedVideos`; a scan whose members are
all invalid or tracked leaves the state as it was; and for a video that is no member, is
invalid or was tracked, the video-to-overlay entry and its occurrences in `trackedVideos`
are unchanged. -/
theorem discovery_complete_and_sound (document : List Element)
    (hno : ∀ e, Reachable document e → e.accessThrows = false) :
    (∀ v, v ∈ findAllVideos document
        ↔ ∃ e, Reachable document e ∧ e.localName = "video" ∧ e.id = v) ∧
      (∀ (s : State) (v : VideoId),
        weakGet (scanForVideos document s).videoElements v ≠ weakGet s.videoElements v →
        v ∈ findAllVideos document ∧ isValidVideo s v = true ∧
          weakHas s.videoElements v = false) ∧
      (∀ s : State,
        scanForVideos document s
          = ((findAllVideos document).filter fun v => isValidVideo s v).foldl
              (fun acc v => if weakHas acc.videoElements v then acc else injectOverlay acc v)
              s) ∧
      (∀ s : State,
        (∀ v, v ∈ findAllVideos document →
          isValidVideo s v = false ∨ weakHas s.videoElements v = true) →
        scanForVideos document s = s) ∧
      (∀ (s : State) (v : VideoId), v ∈ findAllVideos document → isValidVideo s v = true →
        weakHas s.videoElements v = false →
        scanForVideosStep s v = injectOverlay s v ∧
          v ∈ (scanForVideos document s).trackedVideos) ∧
      ∀ (s : State) (v : VideoId),
        (v ∉ findAllVideos document ∨ isValidVideo s v = false ∨
          weakHas s.videoElements v = true) →
        (scanForVideos document s).trackedVideos.count v = s.trackedVideos.count v ∧
          weakGet (scanForVideos document s).videoElements v = weakGet s.videoElements v :=
  ⟨fun v => mem_findAllVideos document hno v,
    fun s v h => scan_entries (findAllVideos document) s v h,
    fun s => scan_eq_filter (findAllVideos document) s,
    fun s h => scan_nothing (findAllVideos document) s h,
    fun s v hm hv h0 =>
      ⟨scanForVideosStep_eq_inject s v hv h0,
        scan_tracks_member (findAllVideos document) s v hm hv h0⟩,
    fun s v h =>
      ⟨scan_tracked_count (findAllVideos document) s v h, by
        by_contra hne
        obtain ⟨h1, h2, h3⟩ := scan_entries (findAllVideos document) s v hne
        rcases h with h | h | h
        · exact h h1
        · rw [h2] at h; exact absurd h (by simp)
        · rw [h3] at h; exact absurd h (by simp)⟩⟩

/-- The theorem `discovery_complete_and_sound` at a sample input. -/
theorem discovery_complete_and_sound_witness :
    (∀ e, Reachable sampleDocument e → e.accessThrows = false) ∧
      7 ∈ findAllVideos sampleDocument ∧ 3 ∈ findAllVideos sampleDocument ∧
      isValidVideo sampleState 7 = true ∧ weakHas sampleState.videoElements 7 = false ∧
      7 ∈ (scanForVideos sampleDocument sampleState).trackedVideos ∧
      scanForVideos sampleDocument detachedState = detachedState := by
  have h := discovery_complete_and_sound sampleDocument sampleDocument_noThrow
  have toHost : Link
      (.mk 100 "html" false
        [.mk 101 "div" false [] (some [.mk 7 "video" false [] none]),
          .mk 3 "video" false [] none]
        none)
      (.mk 101 "div" false [] (some [.mk 7 "video" false [] none])) :=
    Or.inl (by simp [Element.children])
  have toShadow : Link (.mk 101 "div" false [] (some [.mk 7 "video" false [] none]))
      (.mk 7 "video" false [] none) :=
    Or.inr ⟨[.mk 7 "video" false [] none], rfl, by simp⟩
  have toLight : Link
      (.mk 100 "html" false
        [.mk 101 "div" false [] (some [.mk 7 "video" false [] none]),
          .mk 3 "video" false [] none]
        none)
      (.mk 3 "video" false [] none) :=
    Or.inl (by simp [Element.children])
  have h7 : 7 ∈ findAllVideos sampleDocument :=
    (h.1 7).mpr
      ⟨.mk 7 "video" false [] none,
        ⟨_, List.mem_singleton.mpr rfl,
          Relation.ReflTransGen.head toHost
            (Relation.ReflTransGen.head toShadow Relation.ReflTransGen.refl)⟩,
        rfl, rfl⟩
  have h3 : 3 ∈ findAllVideos sampleDocument :=
    (h.1 3).mpr
      ⟨.mk 3 "video" false [] none,
        ⟨_, List.mem_singleton.mpr rfl,
          Relation.ReflTransGen.head toLight Relation.ReflTransGen.refl⟩,
        rfl, rfl⟩
  exact ⟨sampleDocument_noThrow, h7, h3, sampleState_valid 7, rfl,
    (h.2.2.2.2.1 sampleState 7 h7 (sampleState_valid 7) rfl).2,
    h.2.2.2.1 detachedState (fun v _ => Or.inl (detachedState_invalid v))⟩

/-- The theorem `onMessage_responses` at a sample input. -/
theorem onMessage_responses_witness :
    Background.saveMessage.action = some "saveSettings" ∧
      Background.onMessage Background.sampleStorage (some Background.saveMessage)
        = (Background.savePayload Background.sampleStorage
            (Background.Json.obj [("defaultSpeed", Background.Json.num (5 / 2))]),
          .success) ∧
      Background.onMessage Background.sampleStorage
          (some { action := some "ping", settings := none })
        = (Background.sampleStorage, .error "Unknown action: ping") :=
  ⟨rfl,
    (onMessage_responses Background.sampleStorage).2.2.2.2.1 Background.saveMessage _ rfl rfl
      (by simp [Background.Json.truthy]),
    (onMessage_responses Background.sampleStorage).2.2.2.2.2 _ "ping" rfl (by decide)
      (by decide) (by decide)⟩end Revo
